import Mathlib

/-!
# A shallow embedding of the RPAL interpreter (math0110/RPAL-Interpreter)

This file embeds, in Lean 4, the pipeline of the Python RPAL interpreter:
the scanner (`src/tokenizer.py`), the screener (`src/screener_module.py`),
the recursive-descent parser (`src/rpal_ast_builder.py`), the standardizer
(`src/standardize_tree.py`), the control-structure compiler and the CSE
machine (`src/cse_runtime.py`), and proves properties of the embedding.

Conventions of the embedding:
* Python lists used as stacks (append/pop at the right end) are modelled as
  Lean lists whose HEAD is the stack top; `xs ++ [v]`-style appends of the
  Python code therefore become `v :: xs`, and Python's left-to-right list
  order is the reverse of the Lean list where noted.
* While-loops over an index are modelled with an explicit fuel parameter;
  running out of fuel yields `none` ("unknown"), so every `some` result is a
  faithful finite execution of the Python loop.
* Fatal paths (`print(msg); exit(code)`), and uncaught Python exceptions
  (IndexError, TypeError, ZeroDivisionError, ...) are modelled by an error
  type: `Fail.printed msg code` for the former (the message goes to stdout),
  `Fail.pycrash` for the latter (traceback on stderr, exit 1).
* Python string values are Lean `String`s; the single-quote character is
  written `Char.ofNat 39`.
-/

namespace RPAL

/-- The single-quote character `'`. -/
def quoteChar : Char := Char.ofNat 39

/-- A one-character string holding a single quote. -/
def quoteStr : String := String.mk [quoteChar]

/-! ## Token model (`src/token_model.py`) -/

/-- `LexicalToken` of `token_model.py`: value, category (a tag string such
as `"<IDENTIFIER>"`), line number and first/last flags. -/
structure LexicalToken where
  value : String
  category : String
  line_number : Nat
  first_in_sequence : Bool
  last_in_sequence : Bool
  deriving Repr, DecidableEq

/-! ## Scanner (`src/tokenizer.py`, `scan_input`) -/

/-- `alpha` of `scan_input`. -/
def alphaChars : List Char :=
  "abcdefghijklmnopqrstuvwxyzABCDEFGHIJKLMNOPQRSTUVWXYZ".toList

/-- `digit` of `scan_input`. -/
def digitChars : List Char := "0123456789".toList

/-- The numeric value of a decimal digit character. -/
def digitVal (c : Char) : Nat := c.toNat - 48

/-- Python `int(s)` on an all-digit string (no sign): `none` unless the
character list is nonempty and all digits.  (Implemented over `List Char`
because the core `String.toNat?` does not reduce in the kernel.) -/
def pyDigits? (cs : List Char) : Option Nat :=
  if cs.isEmpty || !cs.all (fun c => digitChars.contains c) then none
  else some (cs.foldl (fun a c => a * 10 + digitVal c) 0)

/-- Python `int(s)`: an optional sign followed by digits. -/
def pyIntOfChars? : List Char → Option Int
  | '+' :: rest => (pyDigits? rest).map (fun n => (n : Int))
  | '-' :: rest => (pyDigits? rest).map (fun n => -(n : Int))
  | cs => (pyDigits? cs).map (fun n => (n : Int))

/-- Python `s.split(sep)` for a one-character separator. -/
def splitOnCharList (sep : Char) : List Char → List (List Char)
  | [] => [[]]
  | c :: rest =>
      if c == sep then [] :: splitOnCharList sep rest
      else
        match splitOnCharList sep rest with
        | h :: t => (c :: h) :: t
        | [] => [[c]]

/-- One pass of Python `str.replace` over a character list, with fuel
bounded by the list length: replace every occurrence of a nonempty
pattern, left to right. -/
def replaceAux (pat rep : List Char) : Nat → List Char → List Char
  | 0, cs => cs
  | _ + 1, [] => []
  | fuel + 1, c :: rest =>
      if !pat.isEmpty && pat.isPrefixOf (c :: rest) then
        rep ++ replaceAux pat rep fuel ((c :: rest).drop pat.length)
      else c :: replaceAux pat rep fuel rest

/-- Python `s.replace(pat, rep)` (for nonempty patterns). -/
def pyReplace (s pat rep : String) : String :=
  String.mk (replaceAux pat.toList rep.toList (s.toList.length + 1) s.toList)

/-- ASCII lowercasing, which is what Python `.lower()` does on every
string this interpreter lowercases. -/
def charLower (c : Char) : Char :=
  if 'A' ≤ c && c ≤ 'Z' then Char.ofNat (c.toNat + 32) else c

/-- Python `s.lower()`. -/
def pyLower (s : String) : String := String.mk (s.toList.map charLower)

/-- Lexicographic code-point comparison (Python `<` on strings). -/
def strLtChars : List Char → List Char → Bool
  | [], [] => false
  | [], _ :: _ => true
  | _ :: _, [] => false
  | a :: x, b :: y =>
      if a.toNat < b.toNat then true
      else if b.toNat < a.toNat then false
      else strLtChars x y

/-- Python `a < b` on strings. -/
def pyStrLt (a b : String) : Bool := strLtChars a.toList b.toList

/-- Python `a <= b` on strings. -/
def pyStrLe (a b : String) : Bool := pyStrLt a b || a == b

/-- `operator_chars` of `scan_input` (the braces are written as escapes). -/
def operatorChars : List Char := "+-*<>&.@/:=~|$!#%^_[]\x7b\x7d\"?".toList

/-- `punctuations` of `scan_input`. -/
def punctChars : List Char := "();,".toList

/-- A raw token before flag attachment: the parallel lists `token_list`,
`type_tags`, `line_indices` of `scan_input`, zipped. -/
structure RawTok where
  value : String
  category : String
  line : Nat
  deriving Repr, DecidableEq

/-- Fatal outcomes of the interpreter: either a message printed to stdout
followed by `exit(code)`, or an uncaught Python exception (traceback on
stderr, exit 1).  `fuel` is not a program outcome: it marks that the
modelling fuel ran out, so nothing is known about the Python run. -/
inductive Fail where
  | printed (msg : String) (code : Nat)
  | pycrash
  | fuel
  deriving Repr, DecidableEq

/-- The identifier-continuation test of the scanner's identifier loop:
`input_chars[index] in alpha or in digit or == '_'`. -/
def isIdentCont (c : Char) : Bool :=
  alphaChars.contains c || digitChars.contains c || c == '_'

/-- The continuation test of the scanner's integer loop: digits and letters
are both absorbed (an integer followed by letters becomes one run). -/
def isNumCont (c : Char) : Bool :=
  digitChars.contains c || alphaChars.contains c

/-- The operator-run loop of `scan_input`: absorb characters of
`operator_chars`, but break before a `//` pair so comments are not
absorbed.  Returns the absorbed run and the rest. -/
def opRun : List Char → List Char × List Char
  | [] => ([], [])
  | c :: rest =>
      if operatorChars.contains c then
        if c == '/' && rest.head? == some '/' then ([], c :: rest)
        else
          let (a, b) := opRun rest
          (c :: a, b)
      else ([], c :: rest)

/-- The string-literal loop of `scan_input`: starting after the opening
quote, absorb characters (newlines increment the line counter) until a
closing quote is absorbed or input ends.  Returns
(absorbed characters including any closing quote, rest, new line counter). -/
def strRun : List Char → Nat → List Char × List Char × Nat
  | [], line => ([], [], line)
  | c :: rest, line =>
      let line' := if c == '\n' then line + 1 else line
      if c == quoteChar then ([c], rest, line')
      else
        let (a, b, l) := strRun rest line'
        (c :: a, b, l)

/-- One pass of `scan_input`'s main `while` loop, with explicit fuel.
`idx` is the absolute index of the head of `cs` in the original input
(used only in the unknown-character message), `line` the current line.
Raw tokens are accumulated in input order. -/
def scanAux : Nat → List Char → Nat → Nat → List RawTok →
    Except Fail (List RawTok)
  | 0, [], _, _, acc => .ok acc
  | 0, _ :: _, _, _, _ => .error .pycrash
  | _ + 1, [], _, _, acc => .ok acc
  | fuel + 1, ch :: rest, idx, line, acc =>
      if alphaChars.contains ch then
        let more := rest.takeWhile isIdentCont
        let rest' := rest.dropWhile isIdentCont
        let buf := String.mk (ch :: more)
        scanAux fuel rest' (idx + 1 + more.length) line
          (acc ++ [⟨buf, "<IDENTIFIER>", line⟩])
      else if digitChars.contains ch then
        let more := rest.takeWhile isNumCont
        let rest' := rest.dropWhile isNumCont
        let buf := String.mk (ch :: more)
        let tag := if (pyIntOfChars? (ch :: more)).isSome
          then "<INTEGER>" else "<INVALID>"
        scanAux fuel rest' (idx + 1 + more.length) line
          (acc ++ [⟨buf, tag, line⟩])
      else if ch == '/' && rest.head? == some '/' then
        let body := (rest.drop 1).takeWhile (fun c => c != '\n')
        let rest' := (rest.drop 1).dropWhile (fun c => c != '\n')
        let buf := String.mk (ch :: '/' :: body)
        scanAux fuel rest' (idx + 2 + body.length) line
          (acc ++ [⟨buf, "<DELETE>", line⟩])
      else if ch == quoteChar then
        let (a, rest', line') := strRun rest line
        let buf := String.mk (ch :: a)
        if buf.length == 1 || buf.toList.getLast? != some quoteChar then
          .error (.printed "Error: Unclosed string literal." 1)
        else
          scanAux fuel rest' (idx + 1 + a.length) line'
            (acc ++ [⟨buf, "<STRING>", line'⟩])
      else if punctChars.contains ch then
        let buf := String.mk [ch]
        scanAux fuel rest (idx + 1) line (acc ++ [⟨buf, buf, line⟩])
      else if ch == ' ' || ch == '\t' then
        let more := rest.takeWhile (fun c => c == ' ' || c == '\t')
        let rest' := rest.dropWhile (fun c => c == ' ' || c == '\t')
        let buf := String.mk (ch :: more)
        scanAux fuel rest' (idx + 1 + more.length) line
          (acc ++ [⟨buf, "<DELETE>", line⟩])
      else if ch == '\n' then
        scanAux fuel rest (idx + 1) (line + 1)
          (acc ++ [⟨"\n", "<DELETE>", line⟩])
      else if operatorChars.contains ch then
        let (a, rest') := opRun (ch :: rest)
        scanAux fuel rest' (idx + a.length) line
          (acc ++ [⟨String.mk a, "<OPERATOR>", line⟩])
      else
        .error (.printed
          ("Error: Unknown character " ++ quoteStr ++ String.mk [ch] ++
            quoteStr ++ " at index " ++ toString idx) 1)

/-- Mark the last token of a list with `last_in_sequence := true`
(Python `tokens[-1].mark_as_last()` / assignment). -/
def markLastTok : List LexicalToken → List LexicalToken
  | [] => []
  | [t] => [{ t with last_in_sequence := true }]
  | t :: rest => t :: markLastTok rest

/-- The final loop of `scan_input`: turn raw tokens into `LexicalToken`s,
flag the first, flag the last — except that a final newline token is
dropped and the token before it is flagged last instead.  (A single-token
input receives only the first flag, matching the `if idx == 0 / elif` of
the source.) -/
def attachFlags (raw : List RawTok) : List LexicalToken :=
  let toks := raw.enum.map fun (i, r) =>
    ⟨r.value, r.category, r.line, i == 0, false⟩
  match raw.getLast? with
  | none => []
  | some r =>
      if raw.length == 1 then toks
      else if r.value == "\n" then markLastTok toks.dropLast
      else markLastTok toks

/-- `scan_input` of `tokenizer.py`. -/
def scan_input (cs : List Char) : Except Fail (List LexicalToken) := do
  let raw ← scanAux (cs.length + 1) cs 0 1 []
  .ok (attachFlags raw)

/-! ## Screener (`src/screener_module.py`, `run_screener`) -/

/-- `rpal_keywords` of `run_screener`. -/
def rpal_keywords : List String :=
  ["let", "in", "where", "rec", "fn", "aug", "or", "not", "gr", "ge", "ls",
   "le", "eq", "ne", "true", "false", "nil", "dummy", "within", "and"]

/-- The keyword promotion of the screener loop: an `<IDENTIFIER>` token
whose value is reserved becomes a `<KEYWORD>` token. -/
def retagKeyword (t : LexicalToken) : LexicalToken :=
  if t.category == "<IDENTIFIER>" && rpal_keywords.contains t.value then
    { t with category := "<KEYWORD>" }
  else t

/-- The screener's backward loop over the token list.  The Python loop runs
from the last index down to 0; this recursion processes the tail first, so
the head of the list is processed last, exactly as in the source.  The
returned state is (kept tokens in original order, `has_invalid`,
`first_invalid`).  Because the walk is backwards, the `first_invalid` slot
ends up holding the LAST `<INVALID>` token of the stream. -/
def screenLoop : List LexicalToken →
    List LexicalToken × Bool × Option LexicalToken
  | [] => ([], false, none)
  | t :: rest =>
      let (kept, hi, fi) := screenLoop rest
      let t' := retagKeyword t
      let dropIt := t'.category == "<DELETE>" || t'.value == "\n"
      let (hi', fi') :=
        if t'.category == "<INVALID>" && !hi then (true, some t') else (hi, fi)
      ((if dropIt then kept else t' :: kept), hi', fi')

/-- `run_screener` of `screener_module.py`, after the file has been read
into a character buffer: scan, run the backward screening loop, and
re-flag the final surviving token as last. -/
def run_screener (cs : List Char) :
    Except Fail (List LexicalToken × Bool × Option LexicalToken) := do
  let toks ← scan_input cs
  let (kept, hi, fi) := screenLoop toks
  .ok (markLastTok kept, hi, fi)

/-! ## Trees (`src/tree_node.py`) -/

/-- `TreeNode` of `tree_node.py`: a label and an ordered list of children.
The transient `depth` field is used only by the pretty-printer and is not
modelled. -/
inductive Tree where
  | node (label : String) (descendants : List Tree)
  deriving Repr

/-- The node's label. -/
def Tree.label : Tree → String
  | .node l _ => l

/-- The node's children. -/
def Tree.descendants : Tree → List Tree
  | .node _ ds => ds

/-! ## Parser (`src/rpal_ast_builder.py`)

The parser state is the remaining token stream and the working tree stack
(`tree_stack`); the head of `stk` is the stack top.  All recursive-descent
procedures are embedded as fuel-indexed mutual functions; `.error .fuel`
means the modelling fuel ran out, every other result is the Python one. -/

/-- Parser state: `token_stream` and `tree_stack`. -/
structure PState where
  toks : List LexicalToken
  stk : List Tree

/-- `create_node` of `rpal_ast_builder.py`: pop `k` trees and push a new
node having them as children in original (push) order. -/
def create_node (label : String) (k : Nat) (st : PState) :
    Except Fail PState :=
  if st.stk.length < k then
    .error (.printed "Error: AST stack unexpectedly empty." 1)
  else
    .ok { st with stk := Tree.node label (st.stk.take k).reverse :: st.stk.drop k }

/-- `token_stream[0]`: reading the head of an empty stream is a Python
IndexError. -/
def peekTok (st : PState) : Except Fail LexicalToken :=
  match st.toks with
  | [] => .error .pycrash
  | t :: _ => .ok t

/-- `consume` of `rpal_ast_builder.py`: match the expected value, then
either dequeue the token or — when it is the terminal token — rewrite its
category to `")"` in place. -/
def consume (expected : String) (st : PState) : Except Fail PState :=
  match st.toks with
  | [] => .error .pycrash
  | t :: rest =>
      if t.value != expected then
        .error (.printed ("Syntax error on line " ++ toString t.line_number ++
          ": expected " ++ quoteStr ++ expected ++ quoteStr ++ ", got " ++
          quoteStr ++ t.value ++ quoteStr) 1)
      else if !t.last_in_sequence then .ok { st with toks := rest }
      else
        let t' := if t.category != ")" then { t with category := ")" } else t
        .ok { st with toks := t' :: rest }

/-- `report_expected` of `rpal_ast_builder.py`. -/
def report_expected (expected : String) (st : PState) : Except Fail PState :=
  match st.toks with
  | [] => .error .pycrash
  | t :: _ =>
      .error (.printed ("Syntax error on line " ++ toString t.line_number ++
        ": " ++ quoteStr ++ expected ++ quoteStr ++ " expected") 1)

/-- The canonicalization table of `parse_Bp`. -/
def canonicalCmp (op : String) : String :=
  if op == ">" then "gr" else if op == ">=" then "ge"
  else if op == "<" then "ls" else if op == "<=" then "le" else op

/-- The non-terminal (or inner `while` loop) a `parseGo` call embodies:
one tag per recursive-descent procedure of `rpal_ast_builder.py`, plus one
tag per `while` loop inside a procedure. -/
inductive PTag where
  | E | Evbs | Ew | T | Tcommas | Ta | Taaugs | Tc | B | Bors | Bt | Bamps
  | Bs | Bp | A | Aadds | At | Atmuls | Af | Ap | Apats | R | Rgammas | Rn
  | D | Da | Daands | Dr | Db | Dbvbs | Vb | Vl | Vlloop

/-- All recursive-descent procedures of `rpal_ast_builder.py`, as one
fuel-indexed function (a single structurally recursive definition reduces
well in the kernel, which the equivalent `mutual` block does not).  The
`Nat` argument and result carry the `count` of the procedures that have
one, and are 0 elsewhere.  Per-procedure wrappers named as in the source
follow below. -/
def parseGo : Nat → PTag → PState → Nat → Except Fail (PState × Nat)
  | 0, _, _, _ => .error .fuel
  | fuel + 1, tag, st, count =>
    match tag with
    | .E => do
        -- parse_E
        let t ← peekTok st
        if t.value == "let" then do
          let st ← consume "let" st
          let (st, _) ← parseGo fuel .D st 0
          let t2 ← peekTok st
          if t2.value == "in" then do
            let st ← consume "in" st
            let (st, _) ← parseGo fuel .E st 0
            let st ← create_node "let" 2 st
            .ok (st, 0)
          else do
            let st ← report_expected (quoteStr ++ "in" ++ quoteStr) st
            .ok (st, 0)
        else if t.value == "fn" then do
          let st ← consume "fn" st
          let (st, n) ← parseGo fuel .Evbs st 0
          if n == 0 then do
            let st ← report_expected
              ("identifier or " ++ quoteStr ++ "(" ++ quoteStr) st
            .ok (st, 0)
          else do
            let st ← consume "." st
            let (st, _) ← parseGo fuel .E st 0
            let st ← create_node "lambda" (n + 1) st
            .ok (st, 0)
        else parseGo fuel .Ew st 0
    | .Evbs => do
        -- the while loop of parse_E's fn branch
        let t ← peekTok st
        if t.category == "<IDENTIFIER>" || t.value == "(" then do
          let (st, _) ← parseGo fuel .Vb st 0
          parseGo fuel .Evbs st (count + 1)
        else .ok (st, count)
    | .Ew => do
        -- parse_Ew
        let (st, _) ← parseGo fuel .T st 0
        let t ← peekTok st
        if t.value == "where" then do
          let st ← consume "where" st
          let (st, _) ← parseGo fuel .Dr st 0
          let st ← create_node "where" 2 st
          .ok (st, 0)
        else .ok (st, 0)
    | .T => do
        -- parse_T
        let (st, _) ← parseGo fuel .Ta st 0
        let (st, n) ← parseGo fuel .Tcommas st 0
        if n > 0 then do
          let st ← create_node "tau" (n + 1) st
          .ok (st, 0)
        else .ok (st, 0)
    | .Tcommas => do
        -- the comma loop of parse_T
        let t ← peekTok st
        if t.value == "," then do
          let st ← consume "," st
          let (st, _) ← parseGo fuel .Ta st 0
          parseGo fuel .Tcommas st (count + 1)
        else .ok (st, count)
    | .Ta => do
        -- parse_Ta
        let (st, _) ← parseGo fuel .Tc st 0
        parseGo fuel .Taaugs st 0
    | .Taaugs => do
        -- the aug loop of parse_Ta (builds a node each iteration)
        let t ← peekTok st
        if t.value == "aug" then do
          let st ← consume "aug" st
          let (st, _) ← parseGo fuel .Tc st 0
          let st ← create_node "aug" 2 st
          parseGo fuel .Taaugs st 0
        else .ok (st, 0)
    | .Tc => do
        -- parse_Tc
        let (st, _) ← parseGo fuel .B st 0
        let t ← peekTok st
        if t.value == "->" then do
          let st ← consume "->" st
          let (st, _) ← parseGo fuel .Tc st 0
          let st ← consume "|" st
          let (st, _) ← parseGo fuel .Tc st 0
          let st ← create_node "->" 3 st
          .ok (st, 0)
        else .ok (st, 0)
    | .B => do
        -- parse_B
        let (st, _) ← parseGo fuel .Bt st 0
        parseGo fuel .Bors st 0
    | .Bors => do
        -- the or loop of parse_B
        let t ← peekTok st
        if t.value == "or" then do
          let st ← consume "or" st
          let (st, _) ← parseGo fuel .Bt st 0
          let st ← create_node "or" 2 st
          parseGo fuel .Bors st 0
        else .ok (st, 0)
    | .Bt => do
        -- parse_Bt
        let (st, _) ← parseGo fuel .Bs st 0
        parseGo fuel .Bamps st 0
    | .Bamps => do
        -- the & loop of parse_Bt
        let t ← peekTok st
        if t.value == "&" then do
          let st ← consume "&" st
          let (st, _) ← parseGo fuel .Bs st 0
          let st ← create_node "&" 2 st
          parseGo fuel .Bamps st 0
        else .ok (st, 0)
    | .Bs => do
        -- parse_Bs
        let t ← peekTok st
        if t.value == "not" then do
          let st ← consume "not" st
          let (st, _) ← parseGo fuel .Bp st 0
          let st ← create_node "not" 1 st
          .ok (st, 0)
        else parseGo fuel .Bp st 0
    | .Bp => do
        -- parse_Bp
        let (st, _) ← parseGo fuel .A st 0
        let t ← peekTok st
        if ["gr", ">", "ge", ">=", "ls", "<", "le", "<=", "eq", "ne"].contains
            t.value then do
          let st ← consume t.value st
          let (st, _) ← parseGo fuel .A st 0
          let st ← create_node (canonicalCmp t.value) 2 st
          .ok (st, 0)
        else .ok (st, 0)
    | .A => do
        -- parse_A (leading unary sign, then the +/- loop)
        let t ← peekTok st
        let st ←
          if t.value == "+" then do
            let st ← consume "+" st
            let (st, _) ← parseGo fuel .At st 0
            pure st
          else if t.value == "-" then do
            let st ← consume "-" st
            let (st, _) ← parseGo fuel .At st 0
            create_node "neg" 1 st
          else do
            let (st, _) ← parseGo fuel .At st 0
            pure st
        parseGo fuel .Aadds st 0
    | .Aadds => do
        -- the +/- loop of parse_A
        let t ← peekTok st
        if t.value == "+" || t.value == "-" then do
          let st ← consume t.value st
          let (st, _) ← parseGo fuel .At st 0
          let st ← create_node t.value 2 st
          parseGo fuel .Aadds st 0
        else .ok (st, 0)
    | .At => do
        -- parse_At
        let (st, _) ← parseGo fuel .Af st 0
        parseGo fuel .Atmuls st 0
    | .Atmuls => do
        -- the */`/` loop of parse_At
        let t ← peekTok st
        if t.value == "*" || t.value == "/" then do
          let st ← consume t.value st
          let (st, _) ← parseGo fuel .Af st 0
          let st ← create_node t.value 2 st
          parseGo fuel .Atmuls st 0
        else .ok (st, 0)
    | .Af => do
        -- parse_Af
        let (st, _) ← parseGo fuel .Ap st 0
        let t ← peekTok st
        if t.value == "**" then do
          let st ← consume "**" st
          let (st, _) ← parseGo fuel .Af st 0
          let st ← create_node "**" 2 st
          .ok (st, 0)
        else .ok (st, 0)
    | .Ap => do
        -- parse_Ap
        let (st, _) ← parseGo fuel .R st 0
        parseGo fuel .Apats st 0
    | .Apats => do
        -- the @ loop of parse_Ap
        let t ← peekTok st
        if t.value == "@" then do
          let st ← consume "@" st
          let t2 ← peekTok st
          if t2.category == "<IDENTIFIER>" then do
            let st ← create_node ("<ID:" ++ t2.value ++ ">") 0 st
            let st ← consume t2.value st
            let (st, _) ← parseGo fuel .R st 0
            let st ← create_node "@" 3 st
            parseGo fuel .Apats st 0
          else do
            let st ← report_expected "identifier" st
            .ok (st, 0)
        else .ok (st, 0)
    | .R => do
        -- parse_R
        let (st, _) ← parseGo fuel .Rn st 0
        parseGo fuel .Rgammas st 0
    | .Rgammas => do
        -- the application loop of parse_R
        let t ← peekTok st
        if ["<IDENTIFIER>", "<INTEGER>", "<STRING>"].contains t.category ||
            ["true", "false", "nil", "dummy", "("].contains t.value then do
          let (st, _) ← parseGo fuel .Rn st 0
          let st ← create_node "gamma" 2 st
          parseGo fuel .Rgammas st 0
        else .ok (st, 0)
    | .Rn => do
        -- parse_Rn
        let t ← peekTok st
        if t.category == "<IDENTIFIER>" then do
          let st ← consume t.value st
          let st ← create_node ("<ID:" ++ t.value ++ ">") 0 st
          .ok (st, 0)
        else if t.category == "<INTEGER>" then do
          let st ← consume t.value st
          let st ← create_node ("<INT:" ++ t.value ++ ">") 0 st
          .ok (st, 0)
        else if t.category == "<STRING>" then do
          let st ← consume t.value st
          let st ← create_node ("<STR:" ++ t.value ++ ">") 0 st
          .ok (st, 0)
        else if ["true", "false", "nil", "dummy"].contains t.value then do
          let st ← consume t.value st
          let st ← create_node ("<" ++ t.value ++ ">") 0 st
          .ok (st, 0)
        else if t.value == "(" then do
          let st ← consume "(" st
          let (st, _) ← parseGo fuel .E st 0
          let st ← consume ")" st
          .ok (st, 0)
        else do
          let st ← report_expected ("literal, identifier or " ++ quoteStr ++
            "(" ++ quoteStr) st
          .ok (st, 0)
    | .D => do
        -- parse_D
        let (st, _) ← parseGo fuel .Da st 0
        let t ← peekTok st
        if t.value == "within" then do
          let st ← consume "within" st
          let (st, _) ← parseGo fuel .D st 0
          let st ← create_node "within" 2 st
          .ok (st, 0)
        else .ok (st, 0)
    | .Da => do
        -- parse_Da
        let (st, _) ← parseGo fuel .Dr st 0
        let (st, n) ← parseGo fuel .Daands st 0
        if n > 0 then do
          let st ← create_node "and" (n + 1) st
          .ok (st, 0)
        else .ok (st, 0)
    | .Daands => do
        -- the and loop of parse_Da
        let t ← peekTok st
        if t.value == "and" then do
          let st ← consume "and" st
          let (st, _) ← parseGo fuel .Dr st 0
          parseGo fuel .Daands st (count + 1)
        else .ok (st, count)
    | .Dr => do
        -- parse_Dr
        let t ← peekTok st
        if t.value == "rec" then do
          let st ← consume "rec" st
          let (st, _) ← parseGo fuel .Db st 0
          let st ← create_node "rec" 1 st
          .ok (st, 0)
        else parseGo fuel .Db st 0
    | .Db => do
        -- parse_Db (the source has no else branch: any other token
        -- leaves both stacks untouched)
        let t ← peekTok st
        if t.value == "(" then do
          let st ← consume "(" st
          let (st, _) ← parseGo fuel .D st 0
          let st ← consume ")" st
          .ok (st, 0)
        else if t.category == "<IDENTIFIER>" then do
          let st ← consume t.value st
          let st ← create_node ("<ID:" ++ t.value ++ ">") 0 st
          let t2 ← peekTok st
          if t2.value == "," || t2.value == "=" then do
            let (st, _) ← parseGo fuel .Vl st 0
            let st ← consume "=" st
            let (st, _) ← parseGo fuel .E st 0
            let st ← create_node "=" 2 st
            .ok (st, 0)
          else do
            let (st, n) ← parseGo fuel .Dbvbs st 0
            if n == 0 then do
              let st ← report_expected
                ("identifier or " ++ quoteStr ++ "(" ++ quoteStr) st
              .ok (st, 0)
            else do
              let st ← consume "=" st
              let (st, _) ← parseGo fuel .E st 0
              let st ← create_node "function_form" (n + 2) st
              .ok (st, 0)
        else .ok (st, 0)
    | .Dbvbs => do
        -- the Vb loop of parse_Db's function-form branch
        let t ← peekTok st
        if t.category == "<IDENTIFIER>" || t.value == "(" then do
          let (st, _) ← parseGo fuel .Vb st 0
          parseGo fuel .Dbvbs st (count + 1)
        else .ok (st, count)
    | .Vb => do
        -- parse_Vb
        let t ← peekTok st
        if t.category == "<IDENTIFIER>" then do
          let st ← consume t.value st
          let st ← create_node ("<ID:" ++ t.value ++ ">") 0 st
          .ok (st, 0)
        else if t.value == "(" then do
          let st ← consume "(" st
          let t2 ← peekTok st
          if t2.value == ")" then do
            let st ← consume ")" st
            let st ← create_node "()" 0 st
            .ok (st, 0)
          else if t2.category == "<IDENTIFIER>" then do
            let st ← consume t2.value st
            let st ← create_node ("<ID:" ++ t2.value ++ ">") 0 st
            let (st, _) ← parseGo fuel .Vl st 0
            let st ← consume ")" st
            .ok (st, 0)
          else do
            let st ← report_expected
              ("identifier or " ++ quoteStr ++ ")" ++ quoteStr) st
            .ok (st, 0)
        else do
          let st ← report_expected
            ("identifier or " ++ quoteStr ++ "(" ++ quoteStr) st
          .ok (st, 0)
    | .Vl => do
        -- parse_Vl (wraps into a `,` node when at least one comma was
        -- consumed, absorbing the identifier pushed by the caller)
        let (st, n) ← parseGo fuel .Vlloop st 0
        if n > 0 then do
          let st ← create_node "," (n + 1) st
          .ok (st, 0)
        else .ok (st, 0)
    | .Vlloop => do
        -- the while loop of parse_Vl
        let t ← peekTok st
        if t.value == "," then do
          let st ← consume "," st
          let t2 ← peekTok st
          if t2.category == "<IDENTIFIER>" then do
            let st ← consume t2.value st
            let st ← create_node ("<ID:" ++ t2.value ++ ">") 0 st
            parseGo fuel .Vlloop st (count + 1)
          else do
            let st ← report_expected "identifier" st
            .ok (st, count)
        else .ok (st, count)

/-- `parse_E`. -/
def parse_E (fuel : Nat) (st : PState) : Except Fail PState :=
  (parseGo fuel .E st 0).map (·.1)

/-- `parse_D`. -/
def parse_D (fuel : Nat) (st : PState) : Except Fail PState :=
  (parseGo fuel .D st 0).map (·.1)

/-- `parse_Rn`. -/
def parse_Rn (fuel : Nat) (st : PState) : Except Fail PState :=
  (parseGo fuel .Rn st 0).map (·.1)

/-- `parse_Vb`. -/
def parse_Vb (fuel : Nat) (st : PState) : Except Fail PState :=
  (parseGo fuel .Vb st 0).map (·.1)

/-- `parse_rpal_program` of `rpal_ast_builder.py`: screen the source,
reject invalid tokens, parse an `E`, and pop the resulting tree. -/
def parse_rpal_program (cs : List Char) (fuel : Nat) : Except Fail Tree := do
  let (toks, has_invalid, bad) ← run_screener cs
  if has_invalid then
    match bad with
    | some t =>
        .error (.printed ("Invalid token found on line " ++
          toString t.line_number ++ ": " ++ t.value) 1)
    | none => .error .pycrash
  else do
    let st ← parse_E fuel ⟨toks, []⟩
    match st.stk with
    | t :: _ => .ok t
    | [] => .error (.printed "Error: AST stack unexpectedly empty." 1)

/-! ## Standardizer (`src/standardize_tree.py`) -/

/-- The lambda chain built by the `pop(1)`/`current` loops of rules 3 and 4
of `standardize_subtree`: `chainLambda [x1, …, xn] e` is
`lambda(x1, lambda(x2, … lambda(xn, e)))`, and `chainLambda [] e = e`. -/
def chainLambda : List Tree → Tree → Tree
  | [], e => e
  | x :: xs, e => .node "lambda" [x, chainLambda xs e]

/-- One rewrite step of `standardize_subtree`, applied to a node whose
children `ds` have already been standardized.  Python IndexError /
ValueError on malformed shapes are modelled by `.pycrash`. -/
def stdStep (lbl : String) (ds : List Tree) : Except Fail Tree :=
  if lbl == "let" then
    -- Rule 1: let(=(x, E1), E2) → gamma(lambda(x, E2), E1)
    match ds with
    | [] => .error .pycrash
    | d0 :: _ =>
        if d0.label == "=" then
          match ds with
          | [lhs, rhs] =>
              match lhs.descendants with
              | a :: b :: lrest =>
                  .ok (.node "gamma" [.node "lambda" (a :: rhs :: lrest), b])
              | _ => .error .pycrash
          | _ => .error .pycrash
        else .ok (.node lbl ds)
  else if lbl == "where" then
    -- Rule 2: where(E1, =(x, E2)) → gamma(lambda(x, E1), E2)
    match ds with
    | _ :: d1 :: _ =>
        if d1.label == "=" then
          match ds with
          | [expr, defn] =>
              match defn.descendants with
              | a :: b :: drest =>
                  .ok (.node "gamma" [.node "lambda" (a :: expr :: drest), b])
              | _ => .error .pycrash
          | _ => .error .pycrash
        else .ok (.node lbl ds)
    | _ => .error .pycrash
  else if lbl == "function_form" then
    -- Rule 3: function_form(f, x1, …, xn, E) → =(f, lambda-chain)
    match ds.getLast? with
    | none => .error .pycrash
    | some expression =>
        match ds.dropLast with
        | [] => .ok (.node "=" [expression])
        | f :: xs => .ok (.node "=" [f, chainLambda xs expression])
  else if lbl == "gamma" then
    -- Rule 4: a gamma with more than two children is curried the same way
    if ds.length > 2 then
      match ds.getLast?, ds.dropLast with
      | some expression, f :: xs =>
          .ok (.node "gamma" [f, chainLambda xs expression])
      | _, _ => .error .pycrash
    else .ok (.node lbl ds)
  else if lbl == "within" then
    -- Rule 5: within(=(x1, E1), =(x2, E2)) → =(x2, gamma(lambda(x1, E2), E1))
    if ds.all (fun c => c.label == "=") then
      match ds with
      | d0 :: d1 :: _ =>
          match d0.descendants, d1.descendants with
          | x1 :: e1 :: _, x2 :: e2 :: _ =>
              .ok (.node "=" [x2, .node "gamma" [.node "lambda" [x1, e2], e1]])
          | _, _ => .error .pycrash
      | _ => .error .pycrash
    else .ok (.node lbl ds)
  else if lbl == "@" then
    -- Rule 6: @(E1, N, E2) → gamma(gamma(N, E1), E2)
    match ds with
    | target :: func :: rest =>
        .ok (.node "gamma" (.node "gamma" [func, target] :: rest))
    | _ => .error .pycrash
  else if lbl == "and" then
    -- Rule 7: and(=(x1, E1), …, =(xn, En)) → =( ,(x1…xn), tau(E1…En) )
    do
      let ids ← ds.mapM fun d =>
        match d.descendants with
        | a :: _ => .ok a
        | _ => (.error .pycrash : Except Fail Tree)
      let es ← ds.mapM fun d =>
        match d.descendants with
        | _ :: b :: _ => .ok b
        | _ => (.error .pycrash : Except Fail Tree)
      .ok (.node "=" [.node "," ids, .node "tau" es])
  else if lbl == "rec" then
    -- Rule 8: rec(=(x, E)) → =(x, gamma(Y*, lambda(x, E)))
    match ds.getLast? with
    | none => .error .pycrash
    | some defn =>
        match defn.descendants with
        | x :: _ =>
            .ok (.node "=" (ds.dropLast ++
              [x, .node "gamma" [.node "<Y*>" [], .node "lambda" defn.descendants]]))
        | [] => .error .pycrash
  else .ok (.node lbl ds)

/-- The recursion of `standardize_subtree` over a LIST of trees (the
`for child in node.descendants` loop), fuel-indexed: each tree in the
list is standardized (children first via the recursive call on `ds`,
then the rewrite step).  A single fuel-structural definition reduces
well in the kernel; any fuel at least the total node count suffices. -/
def stdList : Nat → List Tree → Except Fail (List Tree)
  | _, [] => .ok []
  | 0, _ :: _ => .error .fuel
  | fuel + 1, .node lbl ds :: ts => do
      let ds' ← stdList fuel ds
      let t' ← stdStep lbl ds'
      let ts' ← stdList fuel ts
      .ok (t' :: ts')

/-- `standardize_subtree` of `standardize_tree.py`: standardize the
children first, then apply the matching rewrite rule to the node. -/
def standardize_subtree (fuel : Nat) (t : Tree) : Except Fail Tree := do
  match ← stdList fuel [t] with
  | [t'] => .ok t'
  | _ => .error .fuel

/-- `transform_to_standard_form` of `standardize_tree.py`. -/
def transform_to_standard_form (cs : List Char) (fuel : Nat) :
    Except Fail Tree := do
  let ast ← parse_rpal_program cs fuel
  standardize_subtree fuel ast

/-! ## Control structures (`src/cse_runtime.py`, `generate_control_structure`)

Control items: plain label strings, `LambdaClosure`s used as control items
(their environment is still unset there), `DeltaNode`s and `TupleNode`s. -/

/-- An item of a control structure. -/
inductive CtrlItem where
  | s (label : String)
  | lambdaItem (index : Nat) (bounded_variable : String)
  | deltaItem (index : Nat)
  | tupleItem (index : Nat)
  deriving Repr, DecidableEq

/-- The compiler's global state: `control_structures` (each inner list in
Python order, first appended first) and the counter `count`. -/
structure GenState where
  control_structures : List (List CtrlItem)
  count : Nat
  deriving Repr

/-- The `while(len(control_structures) <= i)` padding loop. -/
def ensureLen (st : GenState) (i : Nat) : GenState :=
  { st with control_structures :=
      st.control_structures ++
        List.replicate (i + 1 - st.control_structures.length) [] }

/-- `control_structures[i].append(x)`. -/
def appendAt (st : GenState) (i : Nat) (x : CtrlItem) : GenState :=
  { st with control_structures :=
      st.control_structures.set i ((st.control_structures.getD i []) ++ [x]) }

/-- Python `label[4:-1]`: strip the `<ID:` wrapper from an identifier
label (slicing is total in Python; short strings give `""`). -/
def stripIdWrap (s : String) : String :=
  String.mk ((s.toList.drop 4).dropLast)

/-- The bound-variable string of a lambda's left child: a `,` node becomes
the comma-joined stripped names, anything else its stripped label. -/
def boundVarOf (left : Tree) : String :=
  if left.label == "," then
    String.intercalate "," (left.descendants.map fun c => stripIdWrap c.label)
  else stripIdWrap left.label

/-- How the index of a compilation task is chosen: a fixed sequence
index, or — in the `lambda` case, whose loop passes the GLOBAL `count` to
each recursive call — the counter's CURRENT value at that moment. -/
inductive GenMode where
  | fixedIdx (i : Nat)
  | atCount

/-- `generate_control_structure` of `cse_runtime.py` over a list of
sibling trees compiled under one `GenMode`, fuel-indexed (one structural
definition instead of a mutual block).  The global mutation of
`control_structures`/`count` is threaded through `GenState`. -/
def genList : Nat → List Tree → GenMode → GenState → Except Fail GenState
  | _, [], _, st => .ok st
  | 0, _ :: _, _, _ => .error .fuel
  | fuel + 1, .node lbl ds :: rest, mode, st =>
      let i := match mode with
        | .fixedIdx i => i
        | .atCount => st.count
      let st := ensureLen st i
      if lbl == "lambda" then
        match ds with
        | [] => .error .pycrash
        | left :: body => do
            let k := st.count + 1
            let st := { st with count := k }
            let st := appendAt st i (.lambdaItem k (boundVarOf left))
            let st ← genList fuel body .atCount st
            genList fuel rest mode st
      else if lbl == "->" then
        match ds with
        | cond :: thenB :: elseB :: _ => do
            let k1 := st.count + 1
            let st := appendAt { st with count := k1 } i (.deltaItem k1)
            let st ← genList fuel [thenB] (.fixedIdx k1) st
            let k2 := st.count + 1
            let st := appendAt { st with count := k2 } i (.deltaItem k2)
            let st ← genList fuel [elseB] (.fixedIdx k2) st
            let st := appendAt st i (.s "beta")
            let st ← genList fuel [cond] (.fixedIdx i) st
            genList fuel rest mode st
        | _ => .error .pycrash
      else if lbl == "tau" then do
        let st := appendAt st i (.tupleItem ds.length)
        let st ← genList fuel ds (.fixedIdx i) st
        genList fuel rest mode st
      else do
        let st := appendAt st i (.s lbl)
        let st ← genList fuel ds (.fixedIdx i) st
        genList fuel rest mode st

/-- `generate_control_structure(root, i)`. -/
def generate_control_structure (fuel : Nat) (root : Tree) (i : Nat)
    (st : GenState) : Except Fail GenState :=
  genList fuel [root] (.fixedIdx i) st

/-! ## CSE machine (`src/cse_runtime.py`, `lookup`, `built_in`, `apply_rules`) -/

/-- Runtime values on the CSE stack.  As in the Python source, environment
markers (`"e_i"`), built-in references (`"Print"`, …) and the Y* marker
(`"Y*"`) are ordinary strings; `null` is Python `None`. -/
inductive Value where
  | int (n : Int)
  | str (s : String)
  | bool (b : Bool)
  | tup (elems : List Value)
  | lam (index : Nat) (bounded_variable : String) (environment : Nat)
  | eta (index : Nat) (bounded_variable : String) (environment : Nat)
  | null
  deriving Repr

/-- `builtInFunctions` of `cse_runtime.py`. -/
def builtInFunctions : List String :=
  ["Order", "Print", "print", "Conc", "Stern", "Stem",
   "Isinteger", "Istruthvalue", "Isstring", "Istuple",
   "Isfunction", "ItoS"]

/-- A scope's `bindings` dict: an association list where the FIRST match
wins, so rebinding prepends. -/
abbrev Scope := List (String × Value)

/-- The CSE machine state.  `control` and `stack` have their tops at the
HEAD (the reverse of the Python lists, whose tops are at the right end);
`control_structures` holds each compiled sequence in Python order. -/
structure MachState where
  control : List CtrlItem
  stack : List Value
  environments : List Scope
  current_environment : Nat
  control_structures : List (List CtrlItem)
  is_print_used : Bool

/-- Python `s.split(":")` on a character list. -/
def splitColon : List Char → List (List Char) := splitOnCharList ':' 

/-- Python `s.strip("'")`: remove every leading and trailing quote. -/
def stripQuotes (cs : List Char) : List Char :=
  ((cs.dropWhile (· == quoteChar)).reverse.dropWhile (· == quoteChar)).reverse

/-- The trailing `if label == "Y*" … ` chain of `lookup`; an unmatched
label returns Python `None`. -/
def lookupTail (label : List Char) : Value :=
  if label == "Y*".toList then .str "Y*"
  else if label == "nil".toList then .tup []
  else if label == "true".toList then .bool true
  else if label == "false".toList then .bool false
  else .null

/-- `lookup` of `cse_runtime.py`: strip the `<…>` wrapper, split on `:`,
and dispatch on the type tag.  `INT:`/`STR:`/`ID:` return immediately;
any other shape falls through to `lookupTail`. -/
def lookup (envs : List Scope) (cur : Nat) (name : String) :
    Except Fail Value :=
  let inner := (name.toList.drop 1).dropLast
  match splitColon inner with
  | [label] => .ok (lookupTail label)
  | data_type :: label :: _ =>
      if data_type == "INT".toList then
        match pyIntOfChars? label with
        | some n => .ok (.int n)
        | none => .error .pycrash
      else if data_type == "STR".toList then
        .ok (.str (String.mk (stripQuotes label)))
      else if data_type == "ID".toList then
        let id := String.mk label
        if builtInFunctions.contains id then .ok (.str id)
        else
          match envs.get? cur with
          | none => .error .pycrash
          | some sc =>
              match sc.lookup id with
              | some v => .ok v
              | none =>
                  .error (.printed ("Undeclared Identifier: " ++ id) 1)
      else .ok (lookupTail label)
  | [] => .error .pycrash

/-- Python truthiness of a runtime value (`0`, `""`, `()` and `None` are
falsy; objects are truthy). -/
def pyTruthy : Value → Bool
  | .int n => n != 0
  | .str s => s != ""
  | .bool b => b
  | .tup l => !l.isEmpty
  | .lam _ _ _ => true
  | .eta _ _ _ => true
  | .null => false

/-- A value as a Python number, when it is one (`bool` is an `int`
subclass: `True` counts as 1). -/
def asNum : Value → Option Int
  | .int n => some n
  | .bool b => some (if b then 1 else 0)
  | _ => none

/-- Python `==` on runtime values, fuel-indexed (any fuel at least the
nesting depth suffices): numbers compare up to the bool/int coercion,
strings and `None` structurally, tuples pointwise; values of unrelated
shapes are unequal.  (Python compares closure objects by identity; here
closures compare by their fields, which agrees with the source whenever
the program never applies `eq` to two equal-but-distinct closures.) -/
def pyEqF : Nat → Value → Value → Except Fail Bool
  | 0, _, _ => .error .fuel
  | fuel + 1, a, b =>
      match a, b with
      | .tup [], .tup [] => .ok true
      | .tup (x :: xs), .tup (y :: ys) => do
          let h ← pyEqF fuel x y
          if h then pyEqF fuel (.tup xs) (.tup ys) else .ok false
      | .tup _, .tup _ => .ok false
      | .str x, .str y => .ok (x == y)
      | .null, .null => .ok true
      | .lam i v e, .lam j w f => .ok (i == j && v == w && e == f)
      | .eta i v e, .eta j w f => .ok (i == j && v == w && e == f)
      | a, b =>
          .ok (match asNum a, asNum b with
            | some x, some y => x == y
            | _, _ => false)

/-- Python `+`: numbers add, strings and tuples concatenate, anything
else is a TypeError. -/
def pyAdd (a b : Value) : Except Fail Value :=
  match asNum a, asNum b with
  | some x, some y => .ok (.int (x + y))
  | _, _ =>
      match a, b with
      | .str x, .str y => .ok (.str (x ++ y))
      | .tup x, .tup y => .ok (.tup (x ++ y))
      | _, _ => .error .pycrash

/-- Python `*`: numbers multiply; a string or tuple times a number is
sequence repetition (negative counts give the empty sequence). -/
def pyMul (a b : Value) : Except Fail Value :=
  match asNum a, asNum b with
  | some x, some y => .ok (.int (x * y))
  | _, _ =>
      match a, asNum b with
      | .str s, some n => .ok (.str (String.join (List.replicate n.toNat s)))
      | .tup l, some n => .ok (.tup (List.flatten (List.replicate n.toNat l)))
      | _, _ =>
          match asNum a, b with
          | some n, .str s =>
              .ok (.str (String.join (List.replicate n.toNat s)))
          | some n, .tup l => .ok (.tup (List.flatten (List.replicate n.toNat l)))
          | _, _ => .error .pycrash

/-- Python `-` on numbers. -/
def pySub (a b : Value) : Except Fail Value :=
  match asNum a, asNum b with
  | some x, some y => .ok (.int (x - y))
  | _, _ => .error .pycrash

/-- Python `//` on numbers: FLOOR division (`Int.fdiv`); division by zero
raises. -/
def pyFloorDiv (a b : Value) : Except Fail Value :=
  match asNum a, asNum b with
  | some x, some y => if y == 0 then .error .pycrash else .ok (.int (Int.fdiv x y))
  | _, _ => .error .pycrash

/-- Python `**` on numbers.  A negative exponent produces a float, which
is outside the value model, so it is mapped to the failure value. -/
def pyPow (a b : Value) : Except Fail Value :=
  match asNum a, asNum b with
  | some x, some y =>
      if y < 0 then .error .pycrash else .ok (.int (x ^ y.toNat))
  | _, _ => .error .pycrash

/-- Python `<`-style comparisons, on numbers and on strings (tuple
ordering is not modelled and maps to the failure value). -/
def pyCmp (f : Int → Int → Bool) (g : String → String → Bool) (a b : Value) :
    Except Fail Value :=
  match asNum a, asNum b with
  | some x, some y => .ok (.bool (f x y))
  | _, _ =>
      match a, b with
      | .str x, .str y => .ok (.bool (g x y))
      | _, _ => .error .pycrash

/-- Rule 6's operator table (`apply_rules`): `rand_1 OP rand_2` where
`rand_1` was popped first.  `or`/`&` return an operand by truthiness as
Python's short-circuit operators do; `aug` requires a tuple on the left. -/
def evalBinop (fuel : Nat) (op : String) (rand_1 rand_2 : Value) :
    Except Fail Value :=
  if op == "+" then pyAdd rand_1 rand_2
  else if op == "-" then pySub rand_1 rand_2
  else if op == "*" then pyMul rand_1 rand_2
  else if op == "/" then pyFloorDiv rand_1 rand_2
  else if op == "**" then pyPow rand_1 rand_2
  else if op == "gr" then pyCmp (· > ·) (fun x y => pyStrLt y x) rand_1 rand_2
  else if op == "ge" then pyCmp (· ≥ ·) (fun x y => pyStrLe y x) rand_1 rand_2
  else if op == "ls" then pyCmp (· < ·) pyStrLt rand_1 rand_2
  else if op == "le" then pyCmp (· ≤ ·) pyStrLe rand_1 rand_2
  else if op == "eq" then do
    let h ← pyEqF fuel rand_1 rand_2
    .ok (.bool h)
  else if op == "ne" then do
    let h ← pyEqF fuel rand_1 rand_2
    .ok (.bool !h)
  else if op == "or" then
    .ok (if pyTruthy rand_1 then rand_1 else rand_2)
  else if op == "&" then
    .ok (if pyTruthy rand_1 then rand_2 else rand_1)
  else if op == "aug" then
    match rand_1, rand_2 with
    | .tup l, .tup m => .ok (.tup (l ++ m))
    | .tup l, v => .ok (.tup (l ++ [v]))
    | _, _ => .error .pycrash
  else .error .pycrash

/-- `op` of `apply_rules`: the binary operators of rule 6. -/
def binaryOps : List String :=
  ["+", "-", "*", "/", "**", "gr", "ge", "ls", "le", "eq", "ne", "or", "&",
   "aug"]

/-- `uop` of `apply_rules`. -/
def unaryOps : List String := ["neg", "not"]

/-- The message of `CustomStack.pop` on an empty CSE stack. -/
def cseEmptyFail : Fail :=
  .printed "Error: CSE execution stack unexpectedly empty." 1

/-- Rule 1's test `symbol[0] == "<" and symbol[-1] == ">"`; indexing an
empty string is an IndexError, handled by the caller. -/
def tagCheck (v : String) : Bool :=
  match v.toList with
  | '<' :: c :: cs => (c :: cs).getLast? == some '>'
  | _ => false

/-- Rule 5's marker test `symbol[0:2] == "e_"` (slicing is total). -/
def isMarkerLbl (s : String) : Bool := s.toList.take 2 == ['e', '_']

/-- A stack value that rule 5's scan counts as an environment marker. -/
def isMarker : Value → Bool
  | .str s => isMarkerLbl s
  | _ => false

/-- Python `int(element[2:])` for a marker string, as a `Nat` (genuine
markers are `e_<digits>`). -/
def markerNat (s : String) : Option Nat := pyDigits? (s.toList.drop 2)

/-- The topmost marker string of a stack fragment (head = stack top), as
scanned by rule 5's `for element in reversed(stack)` loop. -/
def findMarker (l : List Value) : Option String :=
  (l.find? isMarker).bind fun v =>
    match v with
    | .str s => some s
    | _ => none

/-- Python `x[i]` for a nonnegative index: tuple element or one-character
string; anything else is a TypeError/IndexError. -/
def pyIndex (v : Value) (i : Nat) : Except Fail Value :=
  match v with
  | .tup l =>
      match l.get? i with
      | some w => .ok w
      | none => .error .pycrash
  | .str s =>
      match s.toList.get? i with
      | some c => .ok (.str (String.mk [c]))
      | none => .error .pycrash
  | _ => .error .pycrash

/-- Python `l[i]` on a tuple with an `Int` index (negative indices count
from the end). -/
def pyIndexInt (l : List Value) (i : Int) : Except Fail Value :=
  if 0 ≤ i then
    match l.get? i.toNat with
    | some w => .ok w
    | none => .error .pycrash
  else
    let j := (l.length : Int) + i
    if 0 ≤ j then
      match l.get? j.toNat with
      | some w => .ok w
      | none => .error .pycrash
    else .error .pycrash

/-- The `.index` attribute of a control item, for rule 8's
`then_part.index` (a plain string has none: AttributeError). -/
def ctrlIndex : CtrlItem → Option Nat
  | .lambdaItem k _ => some k
  | .deltaItem k => some k
  | .tupleItem n => some n
  | .s _ => none

/-- The rule-11 binding loop: bind `vars[i]` to `rand[i]` in ascending
order of `i`, each binding shadowing earlier ones. -/
def bindVars : List String → Nat → Value → Scope → Except Fail Scope
  | [], _, _, acc => .ok acc
  | x :: xs, i, rand, acc => do
      let v ← pyIndex rand i
      bindVars xs (i + 1) rand ((x, v) :: acc)

/-- `built_in` of `cse_runtime.py`.  It is invoked by the gamma rule after
`rator` and `rand` have been popped; it may push results, and `Conc`
additionally pops the stack and the control.  `Isfunction` computes its
Boolean but returns it to the caller (which discards it) and pushes
NOTHING; `ItoS` on a non-integer prints its message and calls `exit()`,
whose exit code is 0. -/
def built_in (function : String) (argument : Value) (st : MachState) :
    Except Fail MachState :=
  if function == "Order" then
    match argument with
    | .tup l => .ok { st with stack := .int l.length :: st.stack }
    | .str s => .ok { st with stack := .int s.length :: st.stack }
    | _ => .error .pycrash
  else if function == "Print" || function == "print" then
    let st := { st with is_print_used := true }
    let argument := match argument with
      | .str s => Value.str (pyReplace (pyReplace s "\\n" "\n") "\\t" "\t")
      | v => v
    .ok { st with stack := argument :: st.stack }
  else if function == "Conc" then
    match st.stack with
    | [] => .error cseEmptyFail
    | b :: srest =>
        match st.control with
        | [] => .error .pycrash
        | _ :: crest => do
            let w ← pyAdd argument b
            .ok { st with stack := w :: srest, control := crest }
  else if function == "Stern" then
    match argument with
    | .str s => .ok { st with stack := .str (String.mk (s.toList.drop 1)) :: st.stack }
    | .tup l => .ok { st with stack := .tup (l.drop 1) :: st.stack }
    | _ => .error .pycrash
  else if function == "Stem" then
    match argument with
    | .str s =>
        match s.toList with
        | [] => .error .pycrash
        | c :: _ => .ok { st with stack := .str (String.mk [c]) :: st.stack }
    | .tup l =>
        match l with
        | [] => .error .pycrash
        | v :: _ => .ok { st with stack := v :: st.stack }
    | _ => .error .pycrash
  else if function == "Isinteger" then
    let b := match argument with | .int _ => true | _ => false
    .ok { st with stack := .bool b :: st.stack }
  else if function == "Istruthvalue" then
    let b := match argument with | .bool _ => true | _ => false
    .ok { st with stack := .bool b :: st.stack }
  else if function == "Isstring" then
    let b := match argument with | .str _ => true | _ => false
    .ok { st with stack := .bool b :: st.stack }
  else if function == "Istuple" then
    let b := match argument with | .tup _ => true | _ => false
    .ok { st with stack := .bool b :: st.stack }
  else if function == "Isfunction" then
    .ok st
  else if function == "ItoS" then
    match argument with
    | .int n => .ok { st with stack := .str (toString n) :: st.stack }
    | _ => .error (.printed "Error: ItoS function can only accept integers." 0)
  else .ok st

/-- Rule 4 of `apply_rules` (`symbol == "gamma"`), with `rator` and `rand`
already identified as the top two stack values and the control already
advanced past the `gamma` item. -/
def stepGamma (st : MachState) : Except Fail MachState :=
  match st.stack with
  | rator :: rand :: srest =>
      let st := { st with stack := srest }
      match rator with
      | .lam k vars envIdx =>
          let newIdx := st.environments.length
          match st.environments.get? envIdx with
          | none => .error .pycrash
          | some parent => do
              let varlist := (splitOnCharList ',' vars.toList).map String.mk
              let bindings ←
                if varlist.length > 1 then bindVars varlist 0 rand parent
                else .ok ((vars, rand) :: parent)
              let name := "e_" ++ toString newIdx
              match st.control_structures.get? k with
              | none => .error .pycrash
              | some seq =>
                  .ok { st with
                    stack := .str name :: srest,
                    control := seq.reverse ++ (.s name :: st.control),
                    environments := st.environments ++ [bindings],
                    current_environment := newIdx }
      | .tup elems =>
          match asNum rand with
          | none => .error .pycrash
          | some i => do
              let w ← pyIndexInt elems (i - 1)
              .ok { st with stack := w :: srest }
      | .str s =>
          if s == "Y*" then
            match rand with
            | .lam k v e => .ok { st with stack := .eta k v e :: srest }
            | .eta k v e => .ok { st with stack := .eta k v e :: srest }
            | _ => .error .pycrash
          else if builtInFunctions.contains s then built_in s rand st
          else .ok st
      | .eta k v e =>
          .ok { st with
            stack := .lam k v e :: .eta k v e :: rand :: srest,
            control := .s "gamma" :: .s "gamma" :: st.control }
      | _ => .ok st
  | _ => .error cseEmptyFail

/-- Dispatch of `apply_rules` on a popped string item, in source order:
rule 1 (tags), rule 4 (`gamma`), rule 5 (markers), rule 6 (binary ops),
rule 7 (unary ops), rule 8 (`beta`), rule 12 (`Y*`); an unmatched label is
silently dropped.  The control has already been advanced. -/
def stepStr (fuel : Nat) (v : String) (st : MachState) :
    Except Fail MachState :=
  if v == "" then .error .pycrash
  else if tagCheck v then do
    let w ← lookup st.environments st.current_environment v
    .ok { st with stack := w :: st.stack }
  else if v == "gamma" then stepGamma st
  else if isMarkerLbl v then
    match st.stack with
    | v1 :: _ :: srest =>
        if st.current_environment != 0 then
          match findMarker srest with
          | some m =>
              match markerNat m with
              | some k =>
                  .ok { st with
                    stack := v1 :: srest
                    current_environment := k }
              | none => .error .pycrash
          | none => .ok { st with stack := v1 :: srest }
        else .ok { st with stack := v1 :: srest }
    | _ => .error cseEmptyFail
  else if binaryOps.contains v then
    match st.stack with
    | rand_1 :: rand_2 :: srest => do
        let w ← evalBinop fuel v rand_1 rand_2
        .ok { st with stack := w :: srest }
    | _ => .error cseEmptyFail
  else if unaryOps.contains v then
    match st.stack with
    | rand :: srest =>
        if v == "not" then
          .ok { st with stack := .bool (!pyTruthy rand) :: srest }
        else
          match asNum rand with
          | some n => .ok { st with stack := .int (-n) :: srest }
          | none => .error .pycrash
    | [] => .error cseEmptyFail
  else if v == "beta" then
    match st.stack with
    | [] => .error cseEmptyFail
    | b :: srest =>
        match st.control with
        | else_part :: then_part :: crest =>
            let chosen := if pyTruthy b then then_part else else_part
            match ctrlIndex chosen with
            | some k =>
                match st.control_structures.get? k with
                | some seq =>
                    .ok { st with
                      stack := srest
                      control := seq.reverse ++ crest }
                | none => .error .pycrash
            | none => .error .pycrash
        | _ => .error .pycrash
  else if v == "Y*" then .ok { st with stack := .str "Y*" :: st.stack }
  else .ok st

/-- One iteration of the `while(len(control) > 0)` loop of `apply_rules`:
pop the top control item and apply the first matching rule.  The Python
type tests (`LambdaClosure`, `TupleNode`, `DeltaNode`) are disjoint from
the string tests, so constructor dispatch preserves the source's order.
An empty control is left unchanged (the loop would stop).  The fuel is
passed only to the value-equality recursion of rule 6. -/
def step (fuel : Nat) (st : MachState) : Except Fail MachState :=
  match st.control with
  | [] => .ok st
  | symbol :: rest =>
      let st := { st with control := rest }
      match symbol with
      | .lambdaItem k vars =>
          .ok { st with stack := .lam k vars st.current_environment :: st.stack }
      | .deltaItem _ => .ok st
      | .tupleItem n =>
          if st.stack.length < n then .error cseEmptyFail
          else .ok { st with stack := .tup (st.stack.take n) :: st.stack.drop n }
      | .s v => stepStr fuel v st

/-- The `while(len(control) > 0)` loop of `apply_rules`, with fuel. -/
def runMach : Nat → MachState → Except Fail MachState
  | 0, st => if st.control.isEmpty then .ok st else .error .fuel
  | fuel + 1, st =>
      if st.control.isEmpty then .ok st
      else do runMach fuel (← step fuel st)

/-- Python `repr` of each value in a list, fuel-indexed (one structural
definition; any fuel at least the nesting depth suffices).  Closure
objects stringify to an address-dependent form, which the model cannot
determine, so they yield the unknown outcome `.fuel`. -/
def pyReprList : Nat → List Value → Except Fail (List String)
  | _, [] => .ok []
  | 0, _ :: _ => .error .fuel
  | fuel + 1, v :: rest => do
      let s ← match v with
        | .int n => .ok (toString n)
        | .str s => .ok (quoteStr ++ s ++ quoteStr)
        | .bool b => .ok (if b then "True" else "False")
        | .null => .ok "None"
        | .tup l => do
            let parts ← pyReprList fuel l
            match parts with
            | [p] => .ok ("(" ++ p ++ ",)")
            | ps => .ok ("(" ++ String.intercalate ", " ps ++ ")")
        | .lam _ _ _ => .error .fuel
        | .eta _ _ _ => .error .fuel
      let ss ← pyReprList fuel rest
      .ok (s :: ss)

/-- Python `repr` of one value. -/
def pyRepr (fuel : Nat) (v : Value) : Except Fail String :=
  match pyReprList fuel [v] with
  | .ok [s] => .ok s
  | .ok _ => .error .fuel
  | .error e => .error e

/-- Python `str` of a runtime value: a string is itself, everything else
as `repr`. -/
def pyStrV (fuel : Nat) : Value → Except Fail String
  | .str s => .ok s
  | v => pyRepr fuel v

/-- The output-formatting block at the end of `apply_rules`: reads
`stack[0]` (the BOTTOM of the stack), renders a top-level closure,
formats tuples (lowercased booleans, no trailing comma on singletons,
strings inside multi-element tuples shown without quotes), and lowercases
a boolean result. -/
def formatValue (fuel : Nat) (st : MachState) : Except Fail Value :=
  match st.stack.getLast? with
  | none => .error .pycrash
  | some v0 => do
      let v1 := match v0 with
        | .lam k vars _ =>
            Value.str ("[lambda closure: " ++ vars ++ ": " ++ toString k ++ "]")
        | v => v
      let v2 ← match v1 with
        | .tup l =>
            let l' := l.map fun e => match e with
              | .bool b => Value.str (if b then "true" else "false")
              | e => e
            match l' with
            | [x] => do
                let s ← pyStrV fuel x
                pure (Value.str ("(" ++ s ++ ")"))
            | _ =>
                if l'.any (fun e => match e with | .str _ => true | _ => false)
                then do
                  let parts ← l'.mapM (pyStrV fuel)
                  pure (Value.str ("(" ++ String.intercalate ", " parts ++ ")"))
                else pure (Value.tup l')
        | v => pure v
      if (← pyEqF fuel v2 (.bool true)) || (← pyEqF fuel v2 (.bool false))
      then do
        let s ← pyStrV fuel v2
        pure (Value.str (pyLower s))
      else pure v2

/-- The final `print` of `get_result`: emit the formatted `stack[0]` as
one stdout line iff `Print` was invoked during the run. -/
def formatOutput (fuel : Nat) (st : MachState) : Except Fail (List String) := do
  let v3 ← formatValue fuel st
  if st.is_print_used then do
    let s ← pyStrV fuel v3
    .ok [s]
  else .ok []

/-- The machine's initial state in `get_result`:
`C = [e_0] ++ sequence[0]`, `S = [e_0]`, environment 0 empty. -/
def initMachState (gst : GenState) : MachState :=
  { control := (gst.control_structures.getD 0 []).reverse ++ [.s "e_0"],
    stack := [.str "e_0"],
    environments := [[]],
    current_environment := 0,
    control_structures := gst.control_structures,
    is_print_used := false }

/-- `get_result` of `cse_runtime.py`: standardize, compile control
structures, run the machine, and format.  Returns the stdout lines. -/
def get_result (cs : List Char) (fuel : Nat) : Except Fail (List String) := do
  let st ← transform_to_standard_form cs fuel
  let gst ← generate_control_structure fuel st 0 ⟨[], 0⟩
  let final ← runMach fuel (initMachState gst)
  formatOutput fuel final

/-- The whole interpreter run on a source text (`python myrpal.py file`
with no flags): `some (stdout lines, exit code)`, or `none` when the
modelling fuel ran out.  An uncaught Python exception writes only to
stderr and exits 1. -/
def interpreter (cs : List Char) (fuel : Nat) : Option (List String × Nat) :=
  match get_result cs fuel with
  | .ok lines => some (lines, 0)
  | .error (.printed m c) => some ([m], c)
  | .error .pycrash => some ([], 1)
  | .error .fuel => none

/-! ## Properties of the screener (claim C1) -/

/-- The screener's invalid-token test. -/
def isInvalidTok (t : LexicalToken) : Bool := t.category == "<INVALID>"

/-- Keyword promotion does not change whether a token is invalid. -/
theorem retag_invalid (t : LexicalToken) :
    isInvalidTok (retagKeyword t) = isInvalidTok t := by
  unfold retagKeyword isInvalidTok
  by_cases h : t.category == "<IDENTIFIER>" && rpal_keywords.contains t.value
  · rw [if_pos h]
    have hc : t.category = "<IDENTIFIER>" := by
      have := (Bool.and_eq_true _ _).mp h
      exact eq_of_beq this.1
    simp [hc]
  · rw [if_neg h]

/-- An invalid token is untouched by keyword promotion. -/
theorem retag_of_invalid (t : LexicalToken) (h : isInvalidTok t = true) :
    retagKeyword t = t := by
  unfold retagKeyword
  have hc : t.category = "<INVALID>" := eq_of_beq h
  simp [hc]

/-- The backward screening loop reports `has_invalid` exactly when an
invalid token is present, and its `first_invalid` slot ends up holding the
LAST invalid token of the stream (the walk is backwards, and only the
first hit in walk order is recorded). -/
theorem screenLoop_invalid (toks : List LexicalToken) :
    (screenLoop toks).2.1 = toks.any isInvalidTok ∧
    (screenLoop toks).2.2 = (toks.filter isInvalidTok).getLast? := by
  induction toks with
  | nil => exact ⟨rfl, rfl⟩
  | cons t rest ih =>
      obtain ⟨ih1, ih2⟩ := ih
      have hretag : ((retagKeyword t).category == "<INVALID>") = isInvalidTok t :=
        retag_invalid t
      simp only [screenLoop, hretag, ih1, ih2]
      cases hinv : isInvalidTok t with
      | true =>
          rw [retag_of_invalid t hinv]
          rw [List.filter_cons_of_pos (by simpa using hinv)]
          cases hr : rest.any isInvalidTok with
          | false =>
              have hnil : rest.filter isInvalidTok = [] :=
                List.filter_eq_nil_iff.mpr
                  (fun x hx => by simpa using List.any_eq_false.mp hr x hx)
              simp [hnil, List.any_cons, hinv]
          | true =>
              have hne : rest.filter isInvalidTok ≠ [] := by
                intro hnil
                obtain ⟨x, hx, hpx⟩ := List.any_eq_true.mp hr
                exact absurd (List.filter_eq_nil_iff.mp hnil x hx)
                  (by simpa using hpx)
              obtain ⟨x, xs, hfx⟩ := List.exists_cons_of_ne_nil hne
              simp [hfx, List.any_cons, hinv, List.getLast?_cons_cons]
      | false =>
          rw [List.filter_cons_of_neg (by simpa using hinv)]
          simp [List.any_cons, hinv]

/-- C1, corrected (theorem): for every source file whose token stream
contains one or more tokens tagged Invalid, `run_screener` returns
`has_invalid = true` together with the LAST Invalid token of the stream in
emission (left-to-right) order as `first_invalid` — the screening walk is
backwards, so the backmost Invalid token is the one recorded. -/
theorem C1_screener_reports_last_invalid
    (cs : List Char) (toks : List LexicalToken)
    (hscan : scan_input cs = .ok toks)
    (hinv : toks.any isInvalidTok = true) :
    run_screener cs =
      .ok (markLastTok (screenLoop toks).1, true,
        (toks.filter isInvalidTok).getLast?) := by
  obtain ⟨h1, h2⟩ := screenLoop_invalid toks
  unfold run_screener
  rw [hscan]
  rcases hsl : screenLoop toks with ⟨kept, hi, fi⟩
  rw [hsl] at h1 h2
  simp only at h1 h2
  rw [h1, hinv] at hsl
  rw [h2] at hsl
  simp only [bind, Except.bind]
  rw [hsl]

/-- Witness for C1's theorem at the concrete source `1a 2b`, whose stream
holds two Invalid tokens: the screener reports the second one. -/
theorem C1_screener_reports_last_invalid_witness :
    run_screener "1a 2b".toList =
      .ok (markLastTok (screenLoop
            [⟨"1a", "<INVALID>", 1, true, false⟩,
             ⟨" ", "<DELETE>", 1, false, false⟩,
             ⟨"2b", "<INVALID>", 1, false, true⟩]).1, true,
        (([⟨"1a", "<INVALID>", 1, true, false⟩,
           ⟨" ", "<DELETE>", 1, false, false⟩,
           ⟨"2b", "<INVALID>", 1, false, true⟩] :
            List LexicalToken).filter isInvalidTok).getLast?) :=
  C1_screener_reports_last_invalid _ _ (by rfl) (by rfl)

/-- Counterexample to C1 as stated: on the source `1a 2b` the token
stream's first Invalid token (emission order) is `1a`, but `run_screener`
returns the token `2b` as `first_invalid`. -/
theorem C1_counterexample :
    (run_screener "1a 2b".toList).toOption.map (fun r => r.2.2.map (·.value))
        = some (some "2b")
  ∧ (scan_input "1a 2b".toList).toOption.map
        (fun toks => ((toks.filter isInvalidTok).head?).map (·.value))
        = some (some "1a")
  ∧ ("2b" : String) ≠ "1a" :=
  ⟨by rfl, by rfl, by decide⟩

/-! ## Machine-level claims (C3, C4, C5) -/

/-- C3 (code_bug): `built_in` for `Isfunction` computes its Boolean but
pushes NOTHING onto the value stack and leaves the machine state
untouched, for every argument value; consequently `Print (Isfunction 5)`
later underflows the value stack, and the interpreter prints the
empty-stack diagnostic and exits 1 instead of printing `false`. -/
theorem C3_Isfunction_pushes_nothing :
    (∀ (v : Value) (st : MachState), built_in "Isfunction" v st = .ok st)
  ∧ interpreter "Print (Isfunction 5)".toList 300 =
      some (["Error: CSE execution stack unexpectedly empty."], 1) :=
  ⟨fun _ _ => rfl, by rfl⟩

/-- C4, corrected (theorem): rule 6 for `/` pops `rand_1` then `rand_2`
and pushes Python floor division `rand_1 // rand_2` (`Int.fdiv`) — NOT
the quotient truncated toward zero, with which it coincides only when the
result is nonnegative or the division exact. -/
theorem C4_division_is_floor (fuel : Nat) (a b : Int) (hb : b ≠ 0)
    (rest : List CtrlItem) (S : List Value) (envs : List Scope)
    (cur : Nat) (cstr : List (List CtrlItem)) (pu : Bool) :
    step fuel ⟨.s "/" :: rest, .int a :: .int b :: S, envs, cur, cstr, pu⟩ =
      .ok ⟨rest, .int (Int.fdiv a b) :: S, envs, cur, cstr, pu⟩ := by
  have hb' : (b == 0) = false := beq_eq_false_iff_ne.mpr hb
  simp [step, stepStr, evalBinop, pyFloorDiv, asNum, hb', binaryOps,
    tagCheck, isMarkerLbl]
  rfl

/-- Witness for C4's theorem: dividing 9 by 2 pushes 4. -/
theorem C4_division_is_floor_witness :
    step 0 ⟨[.s "/"], [.int 9, .int 2], [[]], 0, [], false⟩ =
      .ok ⟨[], [.int (Int.fdiv 9 2)], [[]], 0, [], false⟩ :=
  C4_division_is_floor 0 9 2 (by decide) [] [] [[]] 0 [] false

/-- Counterexample to C4 as stated: on operands −7 and 2 the machine
pushes −4 (the floor) while truncation toward zero gives −3; the full
program `let x = - 7 in Print (x / 2)` accordingly prints `-4`. -/
theorem C4_counterexample :
    step 0 ⟨[.s "/"], [.int (-7), .int 2], [[]], 0, [], false⟩ =
      .ok ⟨[], [.int (-4)], [[]], 0, [], false⟩
  ∧ interpreter "let x = - 7 in Print (x / 2)".toList 300 = some (["-4"], 0)
  ∧ Int.tdiv (-7) 2 = -3
  ∧ ((-4 : Int) ≠ -3) :=
  ⟨by rfl, by rfl, by decide, by decide⟩

/-- A marker label (`e_` start) fails every string test that precedes
rule 5 in `apply_rules` and is none of the later operator strings. -/
theorem marker_not_special (m : String) (hm : isMarkerLbl m = true) :
    (m == "") = false ∧ tagCheck m = false ∧ (m == "gamma") = false := by
  unfold isMarkerLbl at hm
  match htl : m.toList with
  | [] => rw [htl] at hm; simp at hm
  | [c] => rw [htl] at hm; simp at hm
  | c :: d :: tl =>
      rw [htl] at hm
      have hcd : [c, d] = ['e', '_'] := eq_of_beq (by simpa using hm)
      have hc : c = 'e' := (List.cons.injEq _ _ _ _).mp hcd |>.1
      refine ⟨?_, ?_, ?_⟩
      · rw [beq_eq_false_iff_ne]
        intro he
        rw [he] at htl
        simp [String.toList] at htl
      · unfold tagCheck
        rw [htl, hc]
        simp
      · rw [beq_eq_false_iff_ne]
        intro he
        rw [he] at htl
        simp [String.toList] at htl
        have : 'g' = c := htl.1
        rw [hc] at this
        simp at this

/-- C5, corrected (theorem): when rule 5 pops a marker label from the
control it removes the top value `v` and the item beneath it from the
stack and pushes `v` back; the current environment is then updated ONLY
when it was nonzero AND a marker remains on the stack (in which case it
becomes the topmost remaining marker's id) — otherwise it is left
unchanged, not reset to 0.  The hypothesis `hwf` says every marker left on
the stack carries a numeric id, as genuine markers do. -/
theorem C5_env_rule (fuel : Nat) (m : String) (hm : isMarkerLbl m = true)
    (rest : List CtrlItem) (v u : Value) (S : List Value)
    (envs : List Scope) (cur : Nat) (cstr : List (List CtrlItem)) (pu : Bool)
    (hwf : ∀ s, findMarker S = some s → (markerNat s).isSome) :
    step fuel ⟨.s m :: rest, v :: u :: S, envs, cur, cstr, pu⟩ =
      .ok ⟨rest, v :: S, envs,
        (if cur ≠ 0 then ((findMarker S).bind markerNat).getD cur else cur),
        cstr, pu⟩ := by
  obtain ⟨hne, htag, hgamma⟩ := marker_not_special m hm
  simp only [step, stepStr, hne, htag, hgamma, hm, Bool.false_eq_true,
    if_false, if_true]
  by_cases hc : cur = 0
  · subst hc
    simp
  · have hc2 : (cur != 0) = true := by simpa using hc
    simp only [hc2, if_true, if_pos hc, ne_eq, not_false_iff]
    cases hf : findMarker S with
    | none => simp
    | some s =>
        have hsome := hwf s hf
        cases hmn : markerNat s with
        | none => rw [hmn] at hsome; simp at hsome
        | some k => simp [hmn]

/-- Witness for C5's theorem: popping `e_1` above a stack that still holds
the marker `e_0` sets the current environment to 0. -/
theorem C5_env_rule_witness :
    step 0 ⟨[.s "e_1"], [.int 7, .str "e_1", .str "e_0"], [[], []], 1, [],
        false⟩ =
      .ok ⟨[], [.int 7, .str "e_0"], [[], []],
        (if (1 : Nat) ≠ 0 then
          ((findMarker [.str "e_0"]).bind markerNat).getD 1 else 1),
        [], false⟩ :=
  C5_env_rule 0 "e_1" (by rfl) [] (.int 7) (.str "e_1") [.str "e_0"]
    [[], []] 1 [] false (by intro s hf; cases hf; rfl)

/-- Counterexample to C5 as stated: with current environment 1 and no
marker left on the stack, the machine leaves the current environment at 1,
where the claim demands 0. -/
theorem C5_counterexample :
    step 0 ⟨[.s "e_1"], [.int 7, .str "e_1", .int 5], [[], []], 1, [],
        false⟩ =
      .ok ⟨[], [.int 7, .int 5], [[], []], 1, [], false⟩
  ∧ findMarker [.int 5] = none
  ∧ ((1 : Nat) ≠ 0) :=
  ⟨by rfl, by rfl, by decide⟩

/-! ## Lookup of plain tags (claim C10) -/

/-- Two strings with the same character list are equal. -/
theorem string_eq_of_toList_eq {a b : String} (h : a.toList = b.toList) :
    a = b := by
  cases a
  cases b
  simp only [String.toList] at h
  rw [h]

/-- Splitting on an absent separator returns the whole list. -/
theorem splitOnCharList_of_not_mem (sep : Char) (cs : List Char)
    (h : sep ∉ cs) : splitOnCharList sep cs = [cs] := by
  induction cs with
  | nil => rfl
  | cons c rest ih =>
      have hcs : ¬((c == sep) = true) := by
        intro hb
        exact h (by simp [eq_of_beq hb])
      have hrest : sep ∉ rest := fun hx => h (List.mem_cons_of_mem _ hx)
      simp only [splitOnCharList, if_neg hcs, ih hrest]

/-- The character list of a wrapped tag `<s>`. -/
theorem tag_toList (s : String) :
    ("<" ++ s ++ ">").toList = '<' :: (s.toList ++ ['>']) := by
  cases s
  rfl

/-- C10 (theorem): `lookup` on a tagged item whose inner label contains no
colon and is none of `Y*`, `nil`, `true`, `false` falls through every case
and returns the null value (Python `None`) without error — in particular
`<dummy>` does — and rule 1 then pushes that null value onto the stack. -/
theorem C10_plain_tag_lookup_null :
    (∀ (envs : List Scope) (cur : Nat) (s : String),
      ':' ∉ s.toList → s ≠ "Y*" → s ≠ "nil" → s ≠ "true" → s ≠ "false" →
      lookup envs cur ("<" ++ s ++ ">") = .ok .null)
  ∧ (∀ (fuel : Nat) (rest : List CtrlItem) (S : List Value)
      (envs : List Scope) (cur : Nat) (cstr : List (List CtrlItem))
      (pu : Bool),
      step fuel ⟨.s "<dummy>" :: rest, S, envs, cur, cstr, pu⟩ =
        .ok ⟨rest, .null :: S, envs, cur, cstr, pu⟩) := by
  constructor
  · intro envs cur s hc h1 h2 h3 h4
    unfold lookup
    rw [tag_toList s]
    simp only [List.drop, List.dropLast_concat]
    have hsplit : splitColon s.toList = [s.toList] :=
      splitOnCharList_of_not_mem ':' s.toList hc
    rw [hsplit]
    unfold lookupTail
    have e1 : ¬(s.data = ['Y', '*']) := fun he =>
      h1 (string_eq_of_toList_eq (by simpa [String.toList] using he))
    have e2 : ¬(s.data = ['n', 'i', 'l']) := fun he =>
      h2 (string_eq_of_toList_eq (by simpa [String.toList] using he))
    have e3 : ¬(s.data = ['t', 'r', 'u', 'e']) := fun he =>
      h3 (string_eq_of_toList_eq (by simpa [String.toList] using he))
    have e4 : ¬(s.data = ['f', 'a', 'l', 's', 'e']) := fun he =>
      h4 (string_eq_of_toList_eq (by simpa [String.toList] using he))
    simp [String.toList, e1, e2, e3, e4]
  · intro fuel rest S envs cur cstr pu
    rfl

/-- Witness for C10's theorem at `s = "dummy"` in the empty machine. -/
theorem C10_plain_tag_lookup_null_witness :
    lookup [[]] 0 ("<" ++ "dummy" ++ ">") = .ok .null :=
  C10_plain_tag_lookup_null.1 [[]] 0 "dummy" (by decide) (by decide)
    (by decide) (by decide) (by decide)

/-! ## Conc and the hello program (claim C8) -/

/-- C8 (theorem): when the built-in `Conc` is invoked with first argument
a string `a`, it pops the second argument `b` from the value stack and
one extra item from the control, and pushes the concatenation `a ++ b`;
consequently `let x = 'he' in let y = 'llo' in Print (Conc x y)` prints
`hello` and exits 0. -/
theorem C8_Conc_concatenates :
    (∀ (a b : String) (c : CtrlItem) (crest : List CtrlItem)
      (srest : List Value) (envs : List Scope) (cur : Nat)
      (cstr : List (List CtrlItem)) (pu : Bool),
      built_in "Conc" (.str a)
          ⟨c :: crest, .str b :: srest, envs, cur, cstr, pu⟩ =
        .ok ⟨crest, .str (a ++ b) :: srest, envs, cur, cstr, pu⟩)
  ∧ interpreter ("let x = " ++ quoteStr ++ "he" ++ quoteStr ++
      " in let y = " ++ quoteStr ++ "llo" ++ quoteStr ++
      " in Print (Conc x y)").toList 400 = some (["hello"], 0) :=
  ⟨fun _ _ _ _ _ _ _ _ _ => rfl, by rfl⟩

/-! ## Silent runs (claim C9) -/

/-- `Except` bind on a success, stated for rewriting. -/
theorem exc_bind_ok {α β : Type} (v : α) (f : α → Except Fail β) :
    (Except.ok v >>= f) = f v := rfl

/-- `Except` bind on a failure, stated for rewriting. -/
theorem exc_bind_err {α β : Type} (e : Fail) (f : α → Except Fail β) :
    ((Except.error e : Except Fail α) >>= f) = .error e := rfl

/-- C9, corrected (theorem): a run that completes without a fatal error
and never invokes `Print`/`print` writes nothing to stdout and exits 0
(the original claim fails on fatal paths such as an undeclared
identifier, which print a diagnostic and exit 1 although `Print` was
never invoked). -/
theorem C9_no_print_no_output (cs : List Char) (fuel : Nat) (st : Tree)
    (gst : GenState) (final : MachState) (lines : List String)
    (h1 : transform_to_standard_form cs fuel = .ok st)
    (h2 : generate_control_structure fuel st 0 ⟨[], 0⟩ = .ok gst)
    (h3 : runMach fuel (initMachState gst) = .ok final)
    (h4 : final.is_print_used = false)
    (h5 : formatOutput fuel final = .ok lines) :
    lines = [] ∧ interpreter cs fuel = some ([], 0) := by
  have hl : lines = [] := by
    unfold formatOutput at h5
    rw [h4] at h5
    simp only [Bool.false_eq_true, if_false] at h5
    rcases hfv : formatValue fuel final with e | v <;> rw [hfv] at h5
    · rw [exc_bind_err] at h5
      cases h5
    · rw [exc_bind_ok] at h5
      exact (Except.ok.inj h5).symm
  refine ⟨hl, ?_⟩
  unfold interpreter get_result
  rw [h1, exc_bind_ok, h2, exc_bind_ok, h3, exc_bind_ok, h5, hl]

/-- Witness for C9's theorem at `let x = 5 in x`, whose run binds `x`,
returns 5 and never calls `Print`: no output, exit 0. -/
theorem C9_no_print_no_output_witness :
    ([] : List String) = [] ∧
      interpreter "let x = 5 in x".toList 300 = some ([], 0) :=
  C9_no_print_no_output "let x = 5 in x".toList 300
    (.node "gamma" [.node "lambda" [.node "<ID:x>" [], .node "<ID:x>" []],
      .node "<INT:5>" []])
    ⟨[[.s "gamma", .lambdaItem 1 "x", .s "<INT:5>"], [.s "<ID:x>"]], 1⟩
    ⟨[], [.int 5], [[], [("x", .int 5)]], 0,
      [[.s "gamma", .lambdaItem 1 "x", .s "<INT:5>"], [.s "<ID:x>"]], false⟩
    [] (by rfl) (by rfl) (by rfl) (by rfl) (by rfl)

/-- Counterexample to C9 as stated: the program `x` never invokes `Print`
(its whole token stream is the identifier `x`), yet the interpreter writes
`Undeclared Identifier: x` to stdout and exits 1. -/
theorem C9_counterexample :
    interpreter "x".toList 300 = some (["Undeclared Identifier: x"], 1)
  ∧ (scan_input "x".toList).toOption.map (List.map (fun t => t.value)) =
      some ["x"]
  ∧ (["Undeclared Identifier: x"] : List String) ≠ [] :=
  ⟨by rfl, by rfl, by decide⟩

/-! ## Parser-shaped trees and standardization (claims C2, C6)

`GoodE`/`GoodD` characterize the trees the recursive-descent parser can
push for an expression (`E`-class non-terminals) and for a definition
(`D`-class non-terminals): each constructor corresponds to one
`create_node` call of `rpal_ast_builder.py` with the child sorts its
sub-parsers produce. -/

/-- A leaf whose label is a `<…>` tag (identifiers, literals, `<Y*>`). -/
def TagLeaf (t : Tree) : Prop :=
  tagCheck t.label = true ∧ t.descendants = []

/-- The left-hand side a `=` node can carry: one identifier leaf, or the
`,` node built by `parse_Vl` from at least two identifier leaves. -/
def GoodL (t : Tree) : Prop :=
  TagLeaf t ∨
    (t.label = "," ∧ 2 ≤ t.descendants.length ∧
      ∀ c ∈ t.descendants, TagLeaf c)

/-- A variable binder from `parse_Vb`: an identifier leaf, the `()` leaf,
or a `,` node of identifier leaves. -/
def GoodV (t : Tree) : Prop :=
  GoodL t ∨ t = .node "()" []

/-- The binary operator labels `parse_E`-class productions create. -/
def binELabels : List String :=
  ["aug", "or", "&", "gr", "ge", "ls", "le", "eq", "ne", "+", "-", "*",
   "/", "**"]

mutual

/-- Trees producible for an expression non-terminal. -/
inductive GoodE : Tree → Prop where
  | leaf (lbl : String) : tagCheck lbl = true → GoodE (.node lbl [])
  | let_ (d e : Tree) : GoodD d → GoodE e → GoodE (.node "let" [d, e])
  | where_ (e d : Tree) : GoodE e → GoodD d → GoodE (.node "where" [e, d])
  | lam (vs : List Tree) (e : Tree) : vs ≠ [] → (∀ v ∈ vs, GoodV v) →
      GoodE e → GoodE (.node "lambda" (vs ++ [e]))
  | tau (es : List Tree) : 2 ≤ es.length → (∀ x ∈ es, GoodE x) →
      GoodE (.node "tau" es)
  | bin (op : String) (a b : Tree) : op ∈ binELabels → GoodE a → GoodE b →
      GoodE (.node op [a, b])
  | gam (a b : Tree) : GoodE a → GoodE b → GoodE (.node "gamma" [a, b])
  | cond (a b c : Tree) : GoodE a → GoodE b → GoodE c →
      GoodE (.node "->" [a, b, c])
  | un (op : String) (a : Tree) : op ∈ ["not", "neg"] → GoodE a →
      GoodE (.node op [a])
  | at_ (a n b : Tree) : GoodE a → TagLeaf n → GoodE b →
      GoodE (.node "@" [a, n, b])

/-- Trees producible for a definition non-terminal. -/
inductive GoodD : Tree → Prop where
  | eq (l e : Tree) : GoodL l → GoodE e → GoodD (.node "=" [l, e])
  | ff (f : Tree) (vs : List Tree) (e : Tree) : TagLeaf f → vs ≠ [] →
      (∀ v ∈ vs, GoodV v) → GoodE e →
      GoodD (.node "function_form" (f :: (vs ++ [e])))
  | rec_ (d : Tree) : GoodD d → GoodD (.node "rec" [d])
  | and_ (ds : List Tree) : 2 ≤ ds.length → (∀ d ∈ ds, GoodD d) →
      GoodD (.node "and" ds)
  | within_ (a b : Tree) : GoodD a → GoodD b → GoodD (.node "within" [a, b])

end

mutual

/-- `StdT t s`: one pass of `standardize_subtree` rewrites `t` to `s`
(children first, then the rewrite step) — the fuel-free relational view
of `stdList` on a single tree. -/
inductive StdT : Tree → Tree → Prop where
  | mk (lbl : String) (ds ds' : List Tree) (t' : Tree) :
      StdL ds ds' → stdStep lbl ds' = .ok t' → StdT (.node lbl ds) t'

/-- Pointwise standardization of a list of trees. -/
inductive StdL : List Tree → List Tree → Prop where
  | nil : StdL [] []
  | cons {t t' : Tree} {ts ts' : List Tree} : StdT t t' → StdL ts ts' →
      StdL (t :: ts) (t' :: ts')

end

/-- Every `gamma` node has exactly two children and every `=` node has
exactly two children, throughout the tree. -/
inductive GoodArity : Tree → Prop where
  | mk (lbl : String) (ds : List Tree) :
      (lbl = "gamma" → ds.length = 2) → (lbl = "=" → ds.length = 2) →
      (∀ c ∈ ds, GoodArity c) → GoodArity (.node lbl ds)

/-- A successful fueled run of `stdList` is a derivation of `StdL`. -/
theorem stdList_to_StdL :
    ∀ (fuel : Nat) (l l' : List Tree), stdList fuel l = .ok l' → StdL l l' := by
  intro fuel
  induction fuel with
  | zero =>
      intro l l' h
      match l with
      | [] =>
          cases h
          exact StdL.nil
      | _ :: _ => cases h
  | succ f ih =>
      intro l l' h
      match l with
      | [] =>
          cases h
          exact StdL.nil
      | .node lbl ds :: ts =>
          simp only [stdList] at h
          rcases hds : stdList f ds with e | ds' <;> rw [hds] at h
          · rw [exc_bind_err] at h
            cases h
          · rw [exc_bind_ok] at h
            rcases hstep : stdStep lbl ds' with e | t' <;> rw [hstep] at h
            · rw [exc_bind_err] at h
              cases h
            · rw [exc_bind_ok] at h
              rcases hts : stdList f ts with e | ts' <;> rw [hts] at h
              · rw [exc_bind_err] at h
                cases h
              · rw [exc_bind_ok] at h
                cases h
                exact StdL.cons (StdT.mk lbl ds ds' t' (ih ds ds' hds) hstep)
                  (ih ts ts' hts)

mutual

/-- Standardization is deterministic (tree level). -/
theorem stdT_det {t a b : Tree} (h1 : StdT t a) (h2 : StdT t b) : a = b := by
  cases h1 with
  | mk lbl ds ds1 a hds1 hstep1 =>
      cases h2 with
      | mk _ _ ds2 b hds2 hstep2 =>
          cases stdL_det hds1 hds2
          rw [hstep1] at hstep2
          exact Except.ok.inj hstep2

/-- Standardization is deterministic (list level). -/
theorem stdL_det {l l1 l2 : List Tree} (h1 : StdL l l1) (h2 : StdL l l2) :
    l1 = l2 := by
  cases h1 with
  | nil =>
      cases h2
      rfl
  | cons ht hts =>
      cases h2 with
      | cons ht2 hts2 => rw [stdT_det ht ht2, stdL_det hts hts2]

end

/-- Unequal character lists give unequal strings. -/
theorem string_ne_of_toList_ne {a b : String} (h : a.toList ≠ b.toList) :
    a ≠ b := fun he => h (by rw [he])

/-- A tag-shaped label starts with `<` and so differs from every rewrite
case label of `stdStep` (and from `gamma` and `=`). -/
theorem tag_facts (lbl : String) (h : tagCheck lbl = true) :
    (lbl == "let") = false ∧ (lbl == "where") = false ∧
    (lbl == "function_form") = false ∧ (lbl == "gamma") = false ∧
    (lbl == "within") = false ∧ (lbl == "@") = false ∧
    (lbl == "and") = false ∧ (lbl == "rec") = false ∧
    lbl ≠ "gamma" ∧ lbl ≠ "=" := by
  unfold tagCheck at h
  split at h
  case h_2 => cases h
  case h_1 c cs heq =>
      have hone : ∀ (s : String) (c0 : Char) (rest : List Char),
          s.toList = c0 :: rest → c0 ≠ '<' → lbl ≠ s := by
        intro s c0 rest hs hne he
        rw [he, hs] at heq
        injection heq with h1 _
        exact hne h1
      refine ⟨beq_eq_false_iff_ne.mpr (hone "let" 'l' _ rfl (by decide)),
        beq_eq_false_iff_ne.mpr (hone "where" 'w' _ rfl (by decide)),
        beq_eq_false_iff_ne.mpr (hone "function_form" 'f' _ rfl (by decide)),
        beq_eq_false_iff_ne.mpr (hone "gamma" 'g' _ rfl (by decide)),
        beq_eq_false_iff_ne.mpr (hone "within" 'w' _ rfl (by decide)),
        beq_eq_false_iff_ne.mpr (hone "@" '@' _ rfl (by decide)),
        beq_eq_false_iff_ne.mpr (hone "and" 'a' _ rfl (by decide)),
        beq_eq_false_iff_ne.mpr (hone "rec" 'r' _ rfl (by decide)),
        hone "gamma" 'g' _ rfl (by decide),
        hone "=" '=' _ rfl (by decide)⟩

/-- `stdStep` leaves a tag-labelled node unchanged. -/
theorem stdStep_tag (lbl : String) (h : tagCheck lbl = true)
    (ds : List Tree) : stdStep lbl ds = .ok (.node lbl ds) := by
  obtain ⟨h1, h2, h3, h4, h5, h6, h7, h8, _, _⟩ := tag_facts lbl h
  simp only [stdStep, h1, h2, h3, h4, h5, h6, h7, h8, Bool.false_eq_true,
    if_false]

/-- `stdStep` on the labels that have no rewrite case. -/
theorem stdStep_lambda (ds : List Tree) :
    stdStep "lambda" ds = .ok (.node "lambda" ds) := rfl

theorem stdStep_comma (ds : List Tree) :
    stdStep "," ds = .ok (.node "," ds) := rfl

theorem stdStep_tau (ds : List Tree) :
    stdStep "tau" ds = .ok (.node "tau" ds) := rfl

theorem stdStep_eqLabel (ds : List Tree) :
    stdStep "=" ds = .ok (.node "=" ds) := rfl

theorem stdStep_arrow (ds : List Tree) :
    stdStep "->" ds = .ok (.node "->" ds) := rfl

theorem stdStep_unitLeaf : stdStep "()" [] = .ok (.node "()" []) := rfl

/-- A `gamma` with exactly two children is not rewritten. -/
theorem stdStep_gamma2 (a b : Tree) :
    stdStep "gamma" [a, b] = .ok (.node "gamma" [a, b]) := rfl

/-- An E-class binary operator label has no rewrite case. -/
theorem stdStep_binE (op : String) (h : op ∈ binELabels) (ds : List Tree) :
    stdStep op ds = .ok (.node op ds) := by
  fin_cases h <;> rfl

/-- A unary operator label has no rewrite case. -/
theorem stdStep_unE (op : String) (h : op ∈ (["not", "neg"] : List String))
    (ds : List Tree) : stdStep op ds = .ok (.node op ds) := by
  fin_cases h <;> rfl

/-- Rule 1 of the standardizer on standardized children. -/
theorem stdStep_let (a b rhs : Tree) :
    stdStep "let" [.node "=" [a, b], rhs] =
      .ok (.node "gamma" [.node "lambda" [a, rhs], b]) := rfl

/-- Rule 2 of the standardizer on standardized children. -/
theorem stdStep_where (se a b : Tree) :
    stdStep "where" [se, .node "=" [a, b]] =
      .ok (.node "gamma" [.node "lambda" [a, se], b]) := rfl

/-- Rule 6 of the standardizer on standardized children. -/
theorem stdStep_at (a n b : Tree) :
    stdStep "@" [a, n, b] =
      .ok (.node "gamma" [.node "gamma" [n, a], b]) := rfl

/-- Rule 8 of the standardizer on standardized children. -/
theorem stdStep_rec (a b : Tree) :
    stdStep "rec" [.node "=" [a, b]] =
      .ok (.node "=" [a, .node "gamma" [.node "<Y*>" [],
        .node "lambda" [a, b]]]) := rfl

/-- Rule 5 of the standardizer on standardized children. -/
theorem stdStep_within (a1 b1 a2 b2 : Tree) :
    stdStep "within" [.node "=" [a1, b1], .node "=" [a2, b2]] =
      .ok (.node "=" [a2, .node "gamma" [.node "lambda" [a1, b2], b1]]) := rfl

/-- Rule 3 of the standardizer on standardized children. -/
theorem stdStep_ff (f : Tree) (vs : List Tree) (se : Tree) :
    stdStep "function_form" (f :: (vs ++ [se])) =
      .ok (.node "=" [f, chainLambda vs se]) := by
  have hgl : (f :: (vs ++ [se])).getLast? = some se := by
    rw [show f :: (vs ++ [se]) = (f :: vs) ++ [se] by rfl]
    exact List.getLast?_concat _
  have hdl : (f :: (vs ++ [se])).dropLast = f :: vs := by
    rw [show f :: (vs ++ [se]) = (f :: vs) ++ [se] by rfl]
    exact List.dropLast_concat
  simp only [stdStep, hgl, hdl]
  rfl

/-- Rule 7 of the standardizer on standardized children. -/
theorem stdStep_and (l : List (Tree × Tree)) :
    stdStep "and" (l.map fun p => Tree.node "=" [p.1, p.2]) =
      .ok (.node "=" [.node "," (l.map (·.1)),
        .node "tau" (l.map (·.2))]) := by
  have h1 : (l.map fun p => Tree.node "=" [p.1, p.2]).mapM
      (fun d => match d.descendants with
        | a :: _ => Except.ok a
        | _ => (.error .pycrash : Except Fail Tree)) = .ok (l.map (·.1)) := by
    induction l with
    | nil => rfl
    | cons p rest ih =>
        rw [List.map_cons, List.mapM_cons, ih]
        rfl
  have h2 : (l.map fun p => Tree.node "=" [p.1, p.2]).mapM
      (fun d => match d.descendants with
        | _ :: b :: _ => Except.ok b
        | _ => (.error .pycrash : Except Fail Tree)) = .ok (l.map (·.2)) := by
    clear h1
    induction l with
    | nil => rfl
    | cons p rest ih =>
        rw [List.map_cons, List.mapM_cons, ih]
        rfl
  simp only [stdStep, h1, h2]
  rfl

/-- Build an `StdL` from pointwise self-standardization. -/
theorem stdL_refl_of (l : List Tree) (h : ∀ t ∈ l, StdT t t) : StdL l l := by
  induction l with
  | nil => exact StdL.nil
  | cons t ts ih =>
      exact StdL.cons (h t (List.mem_cons_self t ts))
        (ih fun x hx => h x (List.mem_cons_of_mem _ hx))

/-- `StdL` is compatible with list append. -/
theorem stdL_append {a a' b b' : List Tree} (h1 : StdL a a')
    (h2 : StdL b b') : StdL (a ++ b) (a' ++ b') := by
  induction a generalizing a' with
  | nil => cases h1; exact h2
  | cons t ts ih =>
      cases h1 with
      | cons ht hts => exact StdL.cons ht (ih hts)

/-- A tag leaf standardizes to itself and has good arities. -/
theorem tagLeaf_stable {t : Tree} (h : TagLeaf t) :
    StdT t t ∧ GoodArity t := by
  obtain ⟨htag, hds⟩ := h
  rcases t with ⟨lbl, ds⟩
  simp only [Tree.label] at htag
  simp only [Tree.descendants] at hds
  subst hds
  obtain ⟨_, _, _, _, _, _, _, _, hg, he⟩ := tag_facts lbl htag
  exact ⟨StdT.mk lbl [] [] _ StdL.nil (stdStep_tag lbl htag []),
    GoodArity.mk lbl [] (fun hc => absurd hc hg) (fun hc => absurd hc he)
      (fun c hc => absurd hc (List.not_mem_nil c))⟩

/-- A `Vb`-class binder standardizes to itself and has good arities. -/
theorem goodV_stable {t : Tree} (h : GoodV t) : StdT t t ∧ GoodArity t := by
  rcases h with (hl | hcomma) | hunit
  · exact tagLeaf_stable hl
  · obtain ⟨hlbl, _, hkids⟩ := hcomma
    rcases t with ⟨lbl, ds⟩
    simp only [Tree.label] at hlbl
    subst hlbl
    simp only [Tree.descendants] at hkids
    refine ⟨StdT.mk "," ds ds _
        (stdL_refl_of ds fun c hc => (tagLeaf_stable (hkids c hc)).1)
        (stdStep_comma ds),
      GoodArity.mk "," ds (fun hc => absurd hc (by decide))
        (fun hc => absurd hc (by decide))
        (fun c hc => (tagLeaf_stable (hkids c hc)).2)⟩
  · subst hunit
    exact ⟨StdT.mk "()" [] [] _ StdL.nil stdStep_unitLeaf,
      GoodArity.mk "()" [] (fun hc => absurd hc (by decide))
        (fun hc => absurd hc (by decide))
        (fun c hc => absurd hc (List.not_mem_nil c))⟩

/-- The lambda chain of rules 3/4 is stable and arity-good when its
pieces are. -/
theorem chainLambda_stable (vs : List Tree) (e : Tree)
    (hvs : ∀ v ∈ vs, StdT v v ∧ GoodArity v) (he : StdT e e)
    (hea : GoodArity e) :
    StdT (chainLambda vs e) (chainLambda vs e) ∧
      GoodArity (chainLambda vs e) := by
  induction vs with
  | nil => exact ⟨he, hea⟩
  | cons v rest ih =>
      obtain ⟨hstd, har⟩ :=
        ih fun x hx => hvs x (List.mem_cons_of_mem _ hx)
      obtain ⟨hv, hva⟩ := hvs v (List.mem_cons_self v rest)
      refine ⟨StdT.mk "lambda" [v, chainLambda rest e] [v, chainLambda rest e]
          _ (StdL.cons hv (StdL.cons hstd StdL.nil)) (stdStep_lambda _),
        GoodArity.mk "lambda" [v, chainLambda rest e]
          (fun hc => absurd hc (by decide)) (fun hc => absurd hc (by decide))
          ?_⟩
      intro c hc
      rcases hc with _ | ⟨_, (_ | ⟨_, hc⟩)⟩
      · exact hva
      · exact har
      · exact absurd hc (List.not_mem_nil c)

/-- Bundled stability: the tree standardizes to itself and every
`gamma`/`=` node in it has exactly two children. -/
def Stable (t : Tree) : Prop := StdT t t ∧ GoodArity t

/-- Induction motive for expressions: the tree standardizes to a stable,
arity-good result. -/
def MEo (t : Tree) : Prop := ∃ s, StdT t s ∧ Stable s

/-- Induction motive for definitions: the tree standardizes to a `=`
node with two stable, arity-good children. -/
def MDo (d : Tree) : Prop :=
  ∃ a b, StdT d (.node "=" [a, b]) ∧ Stable a ∧ Stable b

theorem memNil {P : Tree → Prop} : ∀ c ∈ ([] : List Tree), P c :=
  fun c hc => absurd hc (List.not_mem_nil c)

theorem memCons {P : Tree → Prop} {a : Tree} {l : List Tree} (ha : P a)
    (hl : ∀ c ∈ l, P c) : ∀ c ∈ a :: l, P c := by
  intro c hc
  rcases hc with _ | ⟨_, hc⟩
  · exact ha
  · exact hl c hc

theorem memAppend {P : Tree → Prop} {l1 l2 : List Tree}
    (h1 : ∀ c ∈ l1, P c) (h2 : ∀ c ∈ l2, P c) : ∀ c ∈ l1 ++ l2, P c := by
  intro c hc
  rcases List.mem_append.mp hc with h | h
  · exact h1 c h
  · exact h2 c h

/-- Assemble `Stable` for a node from a self-`stdStep`, the two arity
facts and stable children. -/
theorem stable_mk {lbl : String} {ds : List Tree}
    (hstep : stdStep lbl ds = .ok (.node lbl ds))
    (hg : lbl = "gamma" → ds.length = 2) (he : lbl = "=" → ds.length = 2)
    (hds : ∀ c ∈ ds, Stable c) : Stable (.node lbl ds) :=
  ⟨StdT.mk lbl ds ds _ (stdL_refl_of ds fun c hc => (hds c hc).1) hstep,
   GoodArity.mk lbl ds hg he fun c hc => (hds c hc).2⟩

/-- A label with no rewrite case of `stdStep` and no arity obligation. -/
def Inert (lbl : String) : Prop :=
  (∀ ds, stdStep lbl ds = .ok (.node lbl ds)) ∧ lbl ≠ "gamma" ∧ lbl ≠ "="

theorem stable_inert {lbl : String} (h : Inert lbl) {ds : List Tree}
    (hds : ∀ c ∈ ds, Stable c) : Stable (.node lbl ds) :=
  stable_mk (h.1 ds) (fun hc => absurd hc h.2.1)
    (fun hc => absurd hc h.2.2) hds

theorem inert_lambda : Inert "lambda" := ⟨stdStep_lambda, by decide, by decide⟩

theorem inert_tau : Inert "tau" := ⟨stdStep_tau, by decide, by decide⟩

theorem inert_arrow : Inert "->" := ⟨stdStep_arrow, by decide, by decide⟩

theorem inert_comma : Inert "," := ⟨stdStep_comma, by decide, by decide⟩

theorem inert_binE {op : String} (h : op ∈ binELabels) : Inert op := by
  fin_cases h <;> exact ⟨fun ds => rfl, by decide, by decide⟩

theorem inert_unE {op : String} (h : op ∈ (["not", "neg"] : List String)) :
    Inert op := by
  fin_cases h <;> exact ⟨fun ds => rfl, by decide, by decide⟩

theorem stable_gamma2 {a b : Tree} (ha : Stable a) (hb : Stable b) :
    Stable (.node "gamma" [a, b]) :=
  stable_mk (stdStep_gamma2 a b) (fun _ => rfl)
    (fun hc => absurd hc (by decide)) (memCons ha (memCons hb memNil))

theorem stable_eq2 {a b : Tree} (ha : Stable a) (hb : Stable b) :
    Stable (.node "=" [a, b]) :=
  stable_mk (stdStep_eqLabel [a, b]) (fun hc => absurd hc (by decide))
    (fun _ => rfl) (memCons ha (memCons hb memNil))

theorem stable_lambda2 {a b : Tree} (ha : Stable a) (hb : Stable b) :
    Stable (.node "lambda" [a, b]) :=
  stable_inert inert_lambda (memCons ha (memCons hb memNil))

theorem goodL_stable {t : Tree} (h : GoodL t) : Stable t :=
  goodV_stable (Or.inl h)

theorem stable_ystar : Stable (.node "<Y*>" []) := tagLeaf_stable ⟨rfl, rfl⟩

/-- Lift pointwise `MEo` over a list. -/
theorem stdL_of_MEo : ∀ (l : List Tree), (∀ x ∈ l, MEo x) →
    ∃ l2, StdL l l2 ∧ ∀ c ∈ l2, Stable c := by
  intro l
  induction l with
  | nil => exact fun _ => ⟨[], StdL.nil, memNil⟩
  | cons t ts ih =>
      intro h
      obtain ⟨s, hs, hst⟩ := h t (List.mem_cons_self t ts)
      obtain ⟨ts2, hts, hsts⟩ := ih fun x hx => h x (List.mem_cons_of_mem _ hx)
      exact ⟨s :: ts2, StdL.cons hs hts, memCons hst hsts⟩

/-- Lift pointwise `MDo` over a list: the results are `=` pairs. -/
theorem stdL_of_MDo : ∀ (l : List Tree), (∀ d ∈ l, MDo d) →
    ∃ ps : List (Tree × Tree),
      StdL l (ps.map fun p => Tree.node "=" [p.1, p.2]) ∧
        ∀ p ∈ ps, Stable p.1 ∧ Stable p.2 := by
  intro l
  induction l with
  | nil =>
      exact fun _ => ⟨[], StdL.nil, fun p hp => absurd hp (List.not_mem_nil p)⟩
  | cons d ds ih =>
      intro h
      obtain ⟨a, b, hd, ha, hb⟩ := h d (List.mem_cons_self d ds)
      obtain ⟨ps, hps, hstab⟩ := ih fun x hx => h x (List.mem_cons_of_mem _ hx)
      refine ⟨(a, b) :: ps, StdL.cons hd hps, ?_⟩
      intro p hp
      rcases hp with _ | ⟨_, hp⟩
      · exact ⟨ha, hb⟩
      · exact hstab p hp

/-! One handler per `GoodE`/`GoodD` constructor, in recursor order. -/

theorem hE_leaf : ∀ (lbl : String), tagCheck lbl = true →
    MEo (.node lbl []) := fun lbl h =>
  have ht : TagLeaf (Tree.node lbl []) := ⟨h, rfl⟩
  ⟨.node lbl [], (tagLeaf_stable ht).1, tagLeaf_stable ht⟩

theorem hE_let : ∀ (d e : Tree), GoodD d → GoodE e → MDo d → MEo e →
    MEo (.node "let" [d, e]) := fun d e _ _ hd he => by
  obtain ⟨a, b, hdt, ha, hb⟩ := hd
  obtain ⟨se, het, hse⟩ := he
  exact ⟨.node "gamma" [.node "lambda" [a, se], b],
    StdT.mk "let" [d, e] [.node "=" [a, b], se] _
      (StdL.cons hdt (StdL.cons het StdL.nil)) (stdStep_let a b se),
    stable_gamma2 (stable_lambda2 ha hse) hb⟩

theorem hE_where : ∀ (e d : Tree), GoodE e → GoodD d → MEo e → MDo d →
    MEo (.node "where" [e, d]) := fun e d _ _ he hd => by
  obtain ⟨se, het, hse⟩ := he
  obtain ⟨a, b, hdt, ha, hb⟩ := hd
  exact ⟨.node "gamma" [.node "lambda" [a, se], b],
    StdT.mk "where" [e, d] [se, .node "=" [a, b]] _
      (StdL.cons het (StdL.cons hdt StdL.nil)) (stdStep_where se a b),
    stable_gamma2 (stable_lambda2 ha hse) hb⟩

theorem hE_lam : ∀ (vs : List Tree) (e : Tree), vs ≠ [] →
    (∀ v ∈ vs, GoodV v) → GoodE e → MEo e →
    MEo (.node "lambda" (vs ++ [e])) := fun vs e _ hvs _ he => by
  obtain ⟨se, het, hse⟩ := he
  exact ⟨.node "lambda" (vs ++ [se]),
    StdT.mk "lambda" (vs ++ [e]) (vs ++ [se]) _
      (stdL_append (stdL_refl_of vs fun v hv => (goodV_stable (hvs v hv)).1)
        (StdL.cons het StdL.nil)) (stdStep_lambda _),
    stable_inert inert_lambda
      (memAppend (fun v hv => goodV_stable (hvs v hv)) (memCons hse memNil))⟩

theorem hE_tau : ∀ (es : List Tree), 2 ≤ es.length → (∀ x ∈ es, GoodE x) →
    (∀ x ∈ es, MEo x) → MEo (.node "tau" es) := fun es _ _ ih => by
  obtain ⟨es2, hes, hst⟩ := stdL_of_MEo es ih
  exact ⟨.node "tau" es2, StdT.mk _ _ _ _ hes (stdStep_tau es2),
    stable_inert inert_tau hst⟩

theorem hE_bin : ∀ (op : String) (a b : Tree), op ∈ binELabels → GoodE a →
    GoodE b → MEo a → MEo b → MEo (.node op [a, b]) :=
  fun op a b hop _ _ ha hb => by
  obtain ⟨sa, hat, hsa⟩ := ha
  obtain ⟨sb, hbt, hsb⟩ := hb
  exact ⟨.node op [sa, sb],
    StdT.mk _ _ _ _ (StdL.cons hat (StdL.cons hbt StdL.nil))
      ((inert_binE hop).1 [sa, sb]),
    stable_inert (inert_binE hop) (memCons hsa (memCons hsb memNil))⟩

theorem hE_gam : ∀ (a b : Tree), GoodE a → GoodE b → MEo a → MEo b →
    MEo (.node "gamma" [a, b]) := fun a b _ _ ha hb => by
  obtain ⟨sa, hat, hsa⟩ := ha
  obtain ⟨sb, hbt, hsb⟩ := hb
  exact ⟨.node "gamma" [sa, sb],
    StdT.mk _ _ _ _ (StdL.cons hat (StdL.cons hbt StdL.nil))
      (stdStep_gamma2 sa sb),
    stable_gamma2 hsa hsb⟩

theorem hE_cond : ∀ (a b c : Tree), GoodE a → GoodE b → GoodE c → MEo a →
    MEo b → MEo c → MEo (.node "->" [a, b, c]) :=
  fun a b c _ _ _ ha hb hc => by
  obtain ⟨sa, hat, hsa⟩ := ha
  obtain ⟨sb, hbt, hsb⟩ := hb
  obtain ⟨sc, hct, hsc⟩ := hc
  exact ⟨.node "->" [sa, sb, sc],
    StdT.mk _ _ _ _ (StdL.cons hat (StdL.cons hbt (StdL.cons hct StdL.nil)))
      (stdStep_arrow [sa, sb, sc]),
    stable_inert inert_arrow (memCons hsa (memCons hsb (memCons hsc memNil)))⟩

theorem hE_un : ∀ (op : String) (a : Tree), op ∈ (["not", "neg"] : List String) →
    GoodE a → MEo a → MEo (.node op [a]) := fun op a hop _ ha => by
  obtain ⟨sa, hat, hsa⟩ := ha
  exact ⟨.node op [sa],
    StdT.mk _ _ _ _ (StdL.cons hat StdL.nil) ((inert_unE hop).1 [sa]),
    stable_inert (inert_unE hop) (memCons hsa memNil)⟩

theorem hE_at : ∀ (a n b : Tree), GoodE a → TagLeaf n → GoodE b → MEo a →
    MEo b → MEo (.node "@" [a, n, b]) := fun a n b _ hn _ ha hb => by
  obtain ⟨sa, hat, hsa⟩ := ha
  obtain ⟨sb, hbt, hsb⟩ := hb
  have hns := tagLeaf_stable hn
  exact ⟨.node "gamma" [.node "gamma" [n, sa], sb],
    StdT.mk "@" [a, n, b] [sa, n, sb] _
      (StdL.cons hat (StdL.cons hns.1 (StdL.cons hbt StdL.nil)))
      (stdStep_at sa n sb),
    stable_gamma2 (stable_gamma2 hns hsa) hsb⟩

theorem hD_eq : ∀ (l e : Tree), GoodL l → GoodE e → MEo e →
    MDo (.node "=" [l, e]) := fun l e hl _ he => by
  obtain ⟨se, het, hse⟩ := he
  have hls := goodL_stable hl
  exact ⟨l, se,
    StdT.mk "=" [l, e] [l, se] _
      (StdL.cons hls.1 (StdL.cons het StdL.nil)) (stdStep_eqLabel [l, se]),
    hls, hse⟩

theorem hD_ff : ∀ (f : Tree) (vs : List Tree) (e : Tree), TagLeaf f →
    vs ≠ [] → (∀ v ∈ vs, GoodV v) → GoodE e → MEo e →
    MDo (.node "function_form" (f :: (vs ++ [e]))) :=
  fun f vs e hf _ hvs _ he => by
  obtain ⟨se, het, hse⟩ := he
  have hfs := tagLeaf_stable hf
  have hcl := chainLambda_stable vs se
    (fun v hv => goodV_stable (hvs v hv)) hse.1 hse.2
  exact ⟨f, chainLambda vs se,
    StdT.mk "function_form" (f :: (vs ++ [e])) (f :: (vs ++ [se])) _
      (StdL.cons hfs.1 (stdL_append
        (stdL_refl_of vs fun v hv => (goodV_stable (hvs v hv)).1)
        (StdL.cons het StdL.nil)))
      (stdStep_ff f vs se),
    hfs, hcl⟩

theorem hD_rec : ∀ (d : Tree), GoodD d → MDo d → MDo (.node "rec" [d]) :=
  fun d _ hd => by
  obtain ⟨a, b, hdt, ha, hb⟩ := hd
  exact ⟨a, .node "gamma" [.node "<Y*>" [], .node "lambda" [a, b]],
    StdT.mk "rec" [d] [.node "=" [a, b]] _
      (StdL.cons hdt StdL.nil) (stdStep_rec a b),
    ha, stable_gamma2 stable_ystar (stable_lambda2 ha hb)⟩

theorem hD_and : ∀ (ds : List Tree), 2 ≤ ds.length → (∀ d ∈ ds, GoodD d) →
    (∀ d ∈ ds, MDo d) → MDo (.node "and" ds) := fun ds _ _ ih => by
  obtain ⟨ps, hps, hstab⟩ := stdL_of_MDo ds ih
  refine ⟨.node "," (ps.map (·.1)), .node "tau" (ps.map (·.2)),
    StdT.mk "and" ds (ps.map fun p => .node "=" [p.1, p.2]) _
      hps (stdStep_and ps), ?_, ?_⟩
  · refine stable_inert inert_comma ?_
    intro c hc
    obtain ⟨p, hp, rfl⟩ := List.mem_map.mp hc
    exact (hstab p hp).1
  · refine stable_inert inert_tau ?_
    intro c hc
    obtain ⟨p, hp, rfl⟩ := List.mem_map.mp hc
    exact (hstab p hp).2

theorem hD_within : ∀ (a b : Tree), GoodD a → GoodD b → MDo a → MDo b →
    MDo (.node "within" [a, b]) := fun a b _ _ ha hb => by
  obtain ⟨a1, b1, hat, ha1, hb1⟩ := ha
  obtain ⟨a2, b2, hbt, ha2, hb2⟩ := hb
  exact ⟨a2, .node "gamma" [.node "lambda" [a1, b2], b1],
    StdT.mk "within" [a, b] [.node "=" [a1, b1], .node "=" [a2, b2]] _
      (StdL.cons hat (StdL.cons hbt StdL.nil))
      (stdStep_within a1 b1 a2 b2),
    ha2, stable_gamma2 (stable_lambda2 ha1 hb2) hb1⟩

/-- Main lemma: every parser-shaped expression tree standardizes to a
stable tree whose `gamma` and `=` nodes are binary. -/
theorem stdMainE {t : Tree} (h : GoodE t) : MEo t := by
  exact @GoodE.rec (fun t _ => MEo t) (fun d _ => MDo d)
    hE_leaf hE_let hE_where hE_lam hE_tau hE_bin hE_gam hE_cond hE_un hE_at
    hD_eq hD_ff hD_rec hD_and hD_within t h

/-- A successful fueled `standardize_subtree` run is a `StdT` step. -/
theorem standardize_to_StdT {fuel : Nat} {t s : Tree}
    (h : standardize_subtree fuel t = .ok s) : StdT t s := by
  unfold standardize_subtree at h
  rcases hl : stdList fuel [t] with e | l <;> rw [hl] at h
  · rw [exc_bind_err] at h
    cases h
  · rw [exc_bind_ok] at h
    have hL := stdList_to_StdL fuel [t] l hl
    cases hL with
    | cons ht hnil =>
        cases hnil
        cases h
        exact ht

/-- C2 (corrected): in the tree returned by `standardize_subtree` on any
parser-shaped expression tree, every node labeled `gamma` and every node
labeled `=` has exactly two children.  The `lambda` part of the original
claim is false: the standardizer has no rewrite case for `lambda`, so a
parsed `fn x1 … xn . E` keeps its `n + 1` children (see
`C2_counterexample`). -/
theorem C2_standardized_gamma_eq_binary (fuel : Nat) (t s : Tree)
    (hgood : GoodE t) (h : standardize_subtree fuel t = .ok s) :
    GoodArity s := by
  obtain ⟨s2, hts2, hstab⟩ := stdMainE hgood
  rw [stdT_det (standardize_to_StdT h) hts2]
  exact hstab.2

/-- Witness: the AST of `let x = 5 in x` standardizes to
`gamma(lambda(x, x), 5)`, in which every `gamma`/`=` node is binary. -/
theorem C2_standardized_gamma_eq_binary_witness :
    standardize_subtree 10 (.node "let" [.node "=" [.node "<ID:x>" [],
        .node "<INT:5>" []], .node "<ID:x>" []]) =
      .ok (.node "gamma" [.node "lambda" [.node "<ID:x>" [],
        .node "<ID:x>" []], .node "<INT:5>" []]) ∧
    GoodArity (.node "gamma" [.node "lambda" [.node "<ID:x>" [],
        .node "<ID:x>" []], .node "<INT:5>" []]) :=
  ⟨by rfl, C2_standardized_gamma_eq_binary 10
    (.node "let" [.node "=" [.node "<ID:x>" [], .node "<INT:5>" []],
      .node "<ID:x>" []])
    (.node "gamma" [.node "lambda" [.node "<ID:x>" [], .node "<ID:x>" []],
      .node "<INT:5>" []])
    (GoodE.let_ _ _
      (GoodD.eq _ _ (Or.inl ⟨by rfl, rfl⟩) (GoodE.leaf _ (by rfl)))
      (GoodE.leaf _ (by rfl)))
    (by rfl)⟩

/-- C2 (counterexample): the program `fn x y . x` parses and standardizes
to a `lambda` node with THREE children — `standardize_tree.py` has no
rewrite rule for `lambda`, so multi-parameter lambdas keep arity
`n + 1`, refuting the `lambda`-arity-2 part of the claim. -/
theorem C2_counterexample :
    transform_to_standard_form "fn x y . x".toList 300 =
      .ok (.node "lambda" [.node "<ID:x>" [], .node "<ID:y>" [],
        .node "<ID:x>" []]) ∧
    (Tree.node "lambda" [.node "<ID:x>" [], .node "<ID:y>" [],
        .node "<ID:x>" []]).descendants.length = 3 := ⟨by rfl, by rfl⟩

/-- C6 (confirmed for parser-shaped trees): standardization is
idempotent — standardizing the result of `standardize_subtree` returns
it unchanged. -/
theorem C6_standardize_idempotent (f1 f2 : Nat) (t s s2 : Tree)
    (hgood : GoodE t) (h1 : standardize_subtree f1 t = .ok s)
    (h2 : standardize_subtree f2 s = .ok s2) : s2 = s := by
  obtain ⟨s3, hts3, hstab⟩ := stdMainE hgood
  have hs : s = s3 := stdT_det (standardize_to_StdT h1) hts3
  subst hs
  exact stdT_det (standardize_to_StdT h2) hstab.1

/-- Witness: running the standardizer twice on the AST of
`let x = 5 in x` returns the first result unchanged. -/
theorem C6_standardize_idempotent_witness :
    standardize_subtree 10 (.node "let" [.node "=" [.node "<ID:x>" [],
        .node "<INT:5>" []], .node "<ID:x>" []]) =
      .ok (.node "gamma" [.node "lambda" [.node "<ID:x>" [],
        .node "<ID:x>" []], .node "<INT:5>" []]) ∧
    standardize_subtree 12 (.node "gamma" [.node "lambda" [.node "<ID:x>" [],
        .node "<ID:x>" []], .node "<INT:5>" []]) =
      .ok (.node "gamma" [.node "lambda" [.node "<ID:x>" [],
        .node "<ID:x>" []], .node "<INT:5>" []]) ∧
    (Tree.node "gamma" [.node "lambda" [.node "<ID:x>" [],
        .node "<ID:x>" []], .node "<INT:5>" []]) =
      (.node "gamma" [.node "lambda" [.node "<ID:x>" [],
        .node "<ID:x>" []], .node "<INT:5>" []]) :=
  ⟨by rfl, by rfl, C6_standardize_idempotent 10 12
    (.node "let" [.node "=" [.node "<ID:x>" [], .node "<INT:5>" []],
      .node "<ID:x>" []])
    (.node "gamma" [.node "lambda" [.node "<ID:x>" [], .node "<ID:x>" []],
      .node "<INT:5>" []])
    (.node "gamma" [.node "lambda" [.node "<ID:x>" [], .node "<ID:x>" []],
      .node "<INT:5>" []])
    (GoodE.let_ _ _
      (GoodD.eq _ _ (Or.inl ⟨by rfl, rfl⟩) (GoodE.leaf _ (by rfl)))
      (GoodE.leaf _ (by rfl)))
    (by rfl) (by rfl)⟩

/-- Zero or more iterations of the `apply_rules` loop (each with its own
fuel for the value-equality recursion). -/
inductive Steps : MachState → MachState → Prop where
  | refl (st : MachState) : Steps st st
  | head {a b c : MachState} (fuel : Nat) : step fuel a = .ok b → Steps b c →
      Steps a c

theorem steps_trans {a b c : MachState} (h1 : Steps a b) (h2 : Steps b c) :
    Steps a c := by
  induction h1 with
  | refl _ => exact h2
  | head fuel hs _ ih => exact Steps.head fuel hs (ih h2)

/-- Rule 6 as a single step: with `v1` above `v2`, a binary operator
pops `v1` first and pushes `evalBinop op v1 v2`. -/
theorem step_binop {op : String} (hne : (op == "") = false)
    (htag : tagCheck op = false) (hg : (op == "gamma") = false)
    (hm : isMarkerLbl op = false) (hb : binaryOps.contains op = true)
    (fuel : Nat) (v1 v2 : Value) (S : List Value)
    (C : List CtrlItem) (envs : List Scope) (ce : Nat)
    (css : List (List CtrlItem)) (ip : Bool) {res : Value}
    (heval : evalBinop fuel op v1 v2 = .ok res) :
    step fuel ⟨.s op :: C, v1 :: v2 :: S, envs, ce, css, ip⟩ =
      .ok ⟨C, res :: S, envs, ce, css, ip⟩ := by
  show stepStr fuel op ⟨C, v1 :: v2 :: S, envs, ce, css, ip⟩ = _
  simp only [stepStr, hne, htag, hg, hm, hb, Bool.false_eq_true, if_false,
    if_true, heval, exc_bind_ok]

/-- C7, confirmed: (1) compiling a binary operator node `OP(E1, E2)`
appends the operator symbol to structure `i` and then compiles `E1`
followed by `E2` into the same structure, so after the load-time
reversal the machine control reads `rev(code E2) ++ rev(code E1) ++
[OP] ++ …` — `E2`'s code runs first, `E1`'s value arrives last and lies
on top; (2) in that configuration, once `E2`'s code has pushed `v2` and
`E1`'s code has pushed `v1` on top of it, executing `OP` pops `v1`
(the value of the LEFT operand `E1`) first, pops `v2` second, and
pushes `evalBinop OP v1 v2`; (3) for `-` on integers that result is
`v1 - v2`, i.e. value(E1) minus value(E2). -/
theorem C7_binop_operand_order :
    (∀ (op : String), op ≠ "lambda" → op ≠ "->" → op ≠ "tau" →
      ∀ (E1 E2 : Tree) (i fuel : Nat) (st : GenState),
        generate_control_structure (fuel + 1) (.node op [E1, E2]) i st =
          genList fuel [E1, E2] (.fixedIdx i)
            (appendAt (ensureLen st i) i (.s op))) ∧
    (∀ (op : String), op ∈ binaryOps →
      ∀ (st0 st1 st2 : MachState) (revB revA rest : List CtrlItem)
        (v1 v2 res : Value) (fuel : Nat),
        st0.control = revB ++ revA ++ .s op :: rest →
        st1.control = revA ++ .s op :: rest →
        st1.stack = v2 :: st0.stack →
        st2.control = .s op :: rest →
        st2.stack = v1 :: v2 :: st0.stack →
        Steps st0 st1 → Steps st1 st2 →
        evalBinop fuel op v1 v2 = .ok res →
        Steps st0 { st2 with control := rest, stack := res :: st0.stack }) ∧
    (∀ (fuel : Nat) (a b : Int),
      evalBinop fuel "-" (.int a) (.int b) = .ok (.int (a - b))) := by
  refine ⟨?_, ?_, ?_⟩
  · intro op h1 h2 h3 E1 E2 i fuel st
    have f1 : (op == "lambda") = false := beq_eq_false_iff_ne.mpr h1
    have f2 : (op == "->") = false := beq_eq_false_iff_ne.mpr h2
    have f3 : (op == "tau") = false := beq_eq_false_iff_ne.mpr h3
    show genList (fuel + 1) [.node op [E1, E2]] (.fixedIdx i) st = _
    simp only [genList, f1, f2, f3, Bool.false_eq_true, if_false]
    rcases hg : genList fuel [E1, E2] (.fixedIdx i)
        (appendAt (ensureLen st i) i (.s op)) with e | st2
    · rw [exc_bind_err]
    · rw [exc_bind_ok]
  · intro op hop st0 st1 st2 revB revA rest v1 v2 res fuel hc0 hc1 hs1 hc2
      hs2 h01 h12 heval
    refine steps_trans h01 (steps_trans h12 (Steps.head fuel ?_ (Steps.refl _)))
    rcases st2 with ⟨c2, s2, e2, ce2, css2, ip2⟩
    obtain rfl : c2 = .s op :: rest := hc2
    obtain rfl : s2 = v1 :: v2 :: st0.stack := hs2
    fin_cases hop <;>
      refine step_binop ?_ ?_ ?_ ?_ ?_ fuel v1 v2 st0.stack rest e2 ce2
        css2 ip2 heval <;> rfl
  · intro fuel a b
    rfl

/-- Witness: compiling `-(7, 2)` emits `-` then `7` then `2` into
structure 0; the machine then executes `2`, `7`, `-` in that (reversed)
order, pops 7 (the left operand's value) first and pushes `7 - 2 = 5`. -/
theorem C7_binop_operand_order_witness :
    generate_control_structure 5 (.node "-" [.node "<INT:7>" [],
        .node "<INT:2>" []]) 0 ⟨[], 0⟩ =
      genList 4 [.node "<INT:7>" [], .node "<INT:2>" []] (.fixedIdx 0)
        (appendAt (ensureLen ⟨[], 0⟩ 0) 0 (.s "-")) ∧
    Steps ⟨[.s "<INT:2>", .s "<INT:7>", .s "-"], [], [[]], 0,
        [[.s "-", .s "<INT:7>", .s "<INT:2>"]], false⟩
      ⟨[], [.int 5], [[]], 0,
        [[.s "-", .s "<INT:7>", .s "<INT:2>"]], false⟩ ∧
    evalBinop 1 "-" (.int 7) (.int 2) = .ok (.int (7 - 2)) :=
  ⟨C7_binop_operand_order.1 "-" (by decide) (by decide) (by decide)
      (.node "<INT:7>" []) (.node "<INT:2>" []) 0 4 ⟨[], 0⟩,
    C7_binop_operand_order.2.1 "-" (by decide)
      ⟨[.s "<INT:2>", .s "<INT:7>", .s "-"], [], [[]], 0,
        [[.s "-", .s "<INT:7>", .s "<INT:2>"]], false⟩
      ⟨[.s "<INT:7>", .s "-"], [.int 2], [[]], 0,
        [[.s "-", .s "<INT:7>", .s "<INT:2>"]], false⟩
      ⟨[.s "-"], [.int 7, .int 2], [[]], 0,
        [[.s "-", .s "<INT:7>", .s "<INT:2>"]], false⟩
      [.s "<INT:2>"] [.s "<INT:7>"] [] (.int 7) (.int 2) (.int 5) 1
      rfl rfl rfl rfl rfl
      (Steps.head 1 (by rfl) (Steps.refl _))
      (Steps.head 1 (by rfl) (Steps.refl _))
      (by rfl),
    C7_binop_operand_order.2.2 1 7 2⟩

end RPAL
